import Mathlib

/-!
Verification development for the Neon Vinyl / Wolfie Groove cascading slot
engine (`backend/app/gamestate.py`, `backend/app/random_generator.py`,
`backend/app/game_config.py`).

The Python core is embedded shallowly:

* The HMAC-SHA256 byte stream is abstracted as a function
  `h : Nat → Nat → Nat` giving byte `j` of hash block `i` (the value is
  taken mod 256 where the code reads a byte).  The function stands for the
  stream determined by one fixed seed triple
  (server_seed, client_seed, nonce); all claims about determinism and
  stream positions quantify over `h`.
* Python floats in payout arithmetic are modelled as rationals (`ℚ`).
* The two genuinely unbounded loops of the code — the rejection-sampling
  loop of `random_int` and the tumble `while True` loop of `run_spin` —
  are given explicit fuel counters and return `Option`; `none` means the
  Python program has not terminated within that bound.
* Weight tables are module-level constants in the code; they are passed as
  an explicit `GameTables` record so that the degenerate-table scenarios
  of the specification are expressible.  `DEFAULT_TABLES` holds the
  concrete values of `game_config.py`.
-/

namespace NeonVinyl

/-! ## Symbols and configuration constants (`game_config.py`) -/

inductive Symbol where
  | WD | SC | WR | WB | WP | WG | W6 | WS | HC | HS | HW | HK
deriving DecidableEq, Repr, Fintype

def symbolValue : Symbol → String
  | .WD => "WD" | .SC => "SC" | .WR => "WR" | .WB => "WB"
  | .WP => "WP" | .WG => "WG" | .W6 => "W6" | .WS => "WS"
  | .HC => "HC" | .HS => "HS" | .HW => "HW" | .HK => "HK"

def GRID_ROWS : Nat := 5
def GRID_COLS : Nat := 6
def MIN_CLUSTER_SIZE : Nat := 4
def INITIAL_MULTIPLIER : Nat := 1
def GHOST_SPOT_BASE : Nat := 2
def MULTIPLIER_GROWTH : Nat := 2
def MAX_MULTIPLIER : Nat := 1024
def MAX_WIN_MULTIPLIER : ℚ := 40000
def MIN_BET : ℚ := 100000

/-- Base-game symbol order and weights (`SYMBOL_WEIGHTS`, insertion order). -/
def BASE_WEIGHTS : List (Symbol × Nat) :=
  [(.WD, 3), (.SC, 2), (.WR, 8), (.WB, 10), (.WP, 12), (.WG, 16),
   (.W6, 19), (.WS, 22), (.HC, 26), (.HS, 29), (.HW, 33), (.HK, 36)]

/-- Free-spin weights (`FREE_SPIN_WEIGHTS`, insertion order). -/
def FS_WEIGHTS : List (Symbol × Nat) :=
  [(.WD, 5), (.SC, 3), (.WR, 8), (.WB, 10), (.WP, 12), (.WG, 16),
   (.W6, 19), (.WS, 22), (.HC, 26), (.HS, 29), (.HW, 33), (.HK, 36)]

structure GameTables where
  baseWeights : List (Symbol × Nat)
  fsWeights : List (Symbol × Nat)
deriving Repr

def DEFAULT_TABLES : GameTables := ⟨BASE_WEIGHTS, FS_WEIGHTS⟩

/-- Running cumulative sums of a weight list (`CUMULATIVE_WEIGHTS` build loop). -/
def cumsums : List Nat → List Nat
  | [] => []
  | w :: ws => w :: (cumsums ws).map (· + w)

def totalOf (ws : List (Symbol × Nat)) : Nat := (ws.map (·.2)).sum

/-! ## Provably fair RNG (`random_generator.py`)

`RNGState` mirrors the pair `(_hash_index, _byte_index)` of
`ProvablyFairRNG`; the abstract `h` supplies the 32-byte hash blocks. -/

structure RNGState where
  hashIndex : Nat
  byteIndex : Nat
deriving DecidableEq, Repr

def initialRNG : RNGState := ⟨0, 0⟩

/-- One byte from the hash stream (`_get_next_bytes` inner step): when the
current 32-byte block is exhausted, advance the chain index. -/
def getByte (h : Nat → Nat → Nat) (s : RNGState) : Nat × RNGState :=
  if s.byteIndex ≥ 32 then
    (h (s.hashIndex + 1) 0 % 256, ⟨s.hashIndex + 1, 1⟩)
  else
    (h s.hashIndex s.byteIndex % 256, ⟨s.hashIndex, s.byteIndex + 1⟩)

/-- `_get_next_bytes(count)`. -/
def getNextBytes (h : Nat → Nat → Nat) : Nat → RNGState → List Nat × RNGState
  | 0, s => ([], s)
  | n + 1, s =>
    let bs := getByte h s
    let rest := getNextBytes h n bs.2
    (bs.1 :: rest.1, rest.2)

/-- Big-endian byte composition (`int.from_bytes(..., 'big')`). -/
def fromBytesBE (bs : List Nat) : Nat := bs.foldl (fun a b => a * 256 + b) 0

/-- Rejection-sampling loop of `random_int` (fueled). -/
def randomIntLoop (h : Nat → Nat → Nat) (maxValue bytesNeeded mask : Nat) :
    Nat → RNGState → Option (Nat × RNGState)
  | 0, _ => none
  | fuel + 1, s =>
    let bs := getNextBytes h bytesNeeded s
    let value := fromBytesBE bs.1 % (mask + 1)
    if value < maxValue then some (value, bs.2)
    else randomIntLoop h maxValue bytesNeeded mask fuel bs.2

/-- `random_int(max_value)`: returns 0 at once for `max_value ≤ 0`,
otherwise rejection-samples over the minimal covering bit width.
`mask + 1 = 2 ^ bits_needed`, so `% (mask + 1)` is the code's `& mask`. -/
def randomInt (h : Nat → Nat → Nat) (maxValue : Int) (fuel : Nat) (s : RNGState) :
    Option (Nat × RNGState) :=
  if maxValue ≤ 0 then some (0, s)
  else
    let bits := Nat.log2 maxValue.toNat + 1
    let bytes := (bits + 7) / 8
    randomIntLoop h maxValue.toNat bytes (2 ^ bits - 1) fuel s

/-- `random_float()`: 4 bytes, divided by 2^32.  Always succeeds. -/
def randomFloat (h : Nat → Nat → Nat) (s : RNGState) : ℚ × RNGState :=
  let bs := getNextBytes h 4 s
  ((fromBytesBE bs.1 : ℚ) / 4294967296, bs.2)

/-- Index scan of `weighted_choice`: first index whose cumulative sum
exceeds the target. -/
def wcScan (target : Nat) : List Nat → Nat → Option Nat
  | [], _ => none
  | c :: rest, i => if target < c then some i else wcScan target rest (i + 1)

/-- `weighted_choice(cumulative_weights, total_weight)`.  When no cumulative
sum exceeds the target the code falls through to `len(...) - 1`. -/
def weightedChoice (h : Nat → Nat → Nat) (cw : List Nat) (total : Int)
    (fuel : Nat) (s : RNGState) : Option (Nat × RNGState) :=
  (randomInt h total fuel s).map fun ts =>
    (match wcScan ts.1 cw 0 with
     | some i => i
     | none => cw.length - 1, ts.2)

/-- Boosted base weights (`get_symbol` boost branch): scatter ×3, wild ×5. -/
def boostWeights (sb wb : Bool) (ws : List (Symbol × Nat)) : List (Symbol × Nat) :=
  ws.map fun sw =>
    let w1 := if sb ∧ sw.1 = .SC then sw.2 * 3 else sw.2
    let w2 := if wb ∧ sw.1 = .WD then w1 * 5 else w1
    (sw.1, w2)

/-- `get_symbol(free_spin_mode, scatter_boost, wild_boost)` over explicit
tables. -/
def getSymbol (T : GameTables) (h : Nat → Nat → Nat)
    (fsm sb wb : Bool) (fuel : Nat) (s : RNGState) : Option (Symbol × RNGState) :=
  if fsm then
    (weightedChoice h (cumsums (T.fsWeights.map (·.2))) (totalOf T.fsWeights) fuel s).map
      fun is => ((T.fsWeights.map (·.1)).getD is.1 .WD, is.2)
  else if sb ∨ wb then
    let bw := boostWeights sb wb T.baseWeights
    (weightedChoice h (cumsums (bw.map (·.2))) (totalOf bw) fuel s).map
      fun is => ((bw.map (·.1)).getD is.1 .WD, is.2)
  else
    (weightedChoice h (cumsums (T.baseWeights.map (·.2))) (totalOf T.baseWeights) fuel s).map
      fun is => ((T.baseWeights.map (·.1)).getD is.1 .WD, is.2)

/-! ## Grid state (`GridState` in `gamestate.py`)

Symbol cells are `Option Symbol` (`None` marks a removed cell); the parallel
multiplier matrix holds `Nat`s.  `List.set` is a no-op out of bounds, which
matches the code's explicit bounds guards; the only unguarded writes in the
code happen at positions produced by the cluster search, which are in
bounds. -/

abbrev Pos : Type := Nat × Nat

abbrev Grid : Type := List (List (Option Symbol))

abbrev MGrid : Type := List (List Nat)

def getCell (g : Grid) (r c : Nat) : Option Symbol := (g.getD r []).getD c none

def setCell (g : Grid) (r c : Nat) (v : Option Symbol) : Grid :=
  g.set r ((g.getD r []).set c v)

def getMult (m : MGrid) (r c : Nat) : Nat := (m.getD r []).getD c 0

def setMult (m : MGrid) (r c : Nat) (v : Nat) : MGrid :=
  m.set r ((m.getD r []).set c v)

/-- The all-ones multiplier grid built by `GridState.__init__`. -/
def initialMGrid : MGrid :=
  (List.range GRID_ROWS).map fun _ => (List.range GRID_COLS).map fun _ => INITIAL_MULTIPLIER

/-- `get_symbol_grid`: symbol values, `""` for empty cells. -/
def symbolGridStrings (g : Grid) : List (List String) :=
  g.map fun row => row.map fun cell => (cell.map symbolValue).getD ""

/-- `_symbols_match`: wild matches any non-scatter; scatter matches only by
the first (equality) branch, which never fires against a target produced by
the cluster scan. -/
def symbolsMatch : Option Symbol → Option Symbol → Bool
  | none, _ => false
  | _, none => false
  | some a, some b =>
    if a = b then true
    else if a = .SC ∨ b = .SC then false
    else if a = .WD ∨ b = .WD then true
    else false

/-- In-bounds cells reached from `(r, c)` by the given direction offsets, in
order (the code's `directions` loop with its bounds check). -/
def stepDirs (dirs : List (Int × Int)) (r c : Nat) : List Pos :=
  dirs.filterMap fun d =>
    let nr := (r : Int) + d.1
    let nc := (c : Int) + d.2
    if 0 ≤ nr ∧ nr < (GRID_ROWS : Int) ∧ 0 ≤ nc ∧ nc < (GRID_COLS : Int) then
      some (nr.toNat, nc.toNat)
    else none

/-- 4-directional neighbours in the code's order `(-1,0),(1,0),(0,-1),(0,1)`. -/
def neighbors4 (r c : Nat) : List Pos :=
  stepDirs [(-1, 0), (1, 0), (0, -1), (0, 1)] r c

/-- Neighbour pass of `_bfs_cluster`: extend local-visited set and FIFO queue
with unvisited neighbours matching the (possibly updated) target. -/
def bfsExpand (g : Grid) (target : Symbol) (nbs : List Pos)
    (lv queue : List Pos) : List Pos × List Pos :=
  nbs.foldl
    (fun st nb =>
      if nb ∈ st.1 then st
      else if symbolsMatch (getCell g nb.1 nb.2) (some target) then
        (st.1 ++ [nb], st.2 ++ [nb])
      else st)
    (lv, queue)

/-- `while queue:` body of `_bfs_cluster` (fueled; each cell is enqueued at
most once thanks to the local-visited guard, so fuel `GRID_ROWS*GRID_COLS`
makes the fueled loop agree with the unbounded Python loop). -/
def bfsLoop (g : Grid) : Nat → List Pos → Symbol → List Pos → List Pos →
    List Pos → List Pos × List Pos
  | 0, _, _, _, gv, acc => (acc, gv)
  | _ + 1, [], _, _, gv, acc => (acc, gv)
  | fuel + 1, p :: queue, target, lv, gv, acc =>
    let cell := getCell g p.1 p.2
    if symbolsMatch cell (some target) then
      let acc2 := acc ++ [p]
      let gv2 := p :: gv
      let target2 :=
        if target = .WD ∧ cell ≠ some .WD then cell.getD target else target
      let st := bfsExpand g target2 (neighbors4 p.1 p.2) lv queue
      bfsLoop g fuel st.2 target2 st.1 gv2 acc2
    else
      bfsLoop g fuel queue target lv gv acc

/-- `_bfs_cluster(start_row, start_col, target_symbol, global_visited)`. -/
def bfsCluster (g : Grid) (r c : Nat) (target : Symbol) (gv : List Pos) :
    List Pos × List Pos :=
  bfsLoop g (GRID_ROWS * GRID_COLS) [(r, c)] target [(r, c)] gv []

/-- Row-major scan order of `find_all_clusters`. -/
def scanOrder : List Pos :=
  (List.range GRID_ROWS).foldr
    (fun r acc => ((List.range GRID_COLS).map fun c => ((r, c) : Pos)) ++ acc) []

/-- Position lists of the winning clusters, in discovery order.  This is
`find_all_clusters` stripped of the payout fields, which depend on the
multiplier grid but not on which cells cluster. -/
def clusterSetsLoop (g : Grid) : List Pos → List Pos → List (List Pos) →
    List (List Pos)
  | [], _, acc => acc
  | p :: rest, visited, acc =>
    if p ∈ visited then clusterSetsLoop g rest visited acc
    else
      match getCell g p.1 p.2 with
      | none => clusterSetsLoop g rest visited acc
      | some sym =>
        if sym = .SC then clusterSetsLoop g rest (p :: visited) acc
        else
          let res := bfsCluster g p.1 p.2 sym visited
          if MIN_CLUSTER_SIZE ≤ res.1.length then
            clusterSetsLoop g rest res.2 (acc ++ [res.1])
          else
            clusterSetsLoop g rest res.2 acc

def clusterSets (g : Grid) : List (List Pos) := clusterSetsLoop g scanOrder [] []

/-- `_get_cluster_symbol`: first non-wild member, else wild. -/
def clusterSymbol (g : Grid) : List Pos → Symbol
  | [] => .WD
  | p :: rest =>
    match getCell g p.1 p.2 with
    | some s => if s ≠ .WD then s else clusterSymbol g rest
    | none => clusterSymbol g rest

/-! ## Paytable (`PAYTABLE` and `get_payout` in `game_config.py`) -/

def lookupD (l : List (Nat × ℚ)) (k : Nat) (d : ℚ) : ℚ :=
  match l.find? fun kv => kv.1 = k with
  | some kv => kv.2
  | none => d

def paytable : Symbol → List (Nat × ℚ)
  | .WD =>
    [(4, 78/100), (5, 125/100), (6, 204/100), (7, 329/100), (8, 549/100),
     (9, 815/100), (10, 1254/100), (11, 2038/100), (12, 3293/100),
     (13, 5018/100), (14, 8154/100), (15, 12544/100)]
  | .SC =>
    [(3, 0), (4, 0), (5, 0), (6, 0), (7, 0), (8, 0), (9, 0), (10, 0),
     (11, 0), (12, 0), (15, 0)]
  | .WR =>
    [(4, 78/100), (5, 125/100), (6, 204/100), (7, 329/100), (8, 549/100),
     (9, 815/100), (10, 1254/100), (11, 2038/100), (12, 3293/100),
     (13, 5018/100), (14, 8154/100), (15, 12544/100)]
  | .WB =>
    [(4, 63/100), (5, 102/100), (6, 165/100), (7, 282/100), (8, 470/100),
     (9, 721/100), (10, 1098/100), (11, 1803/100), (12, 2822/100),
     (13, 4390/100), (14, 7213/100), (15, 10976/100)]
  | .WP =>
    [(4, 50/100), (5, 84/100), (6, 141/100), (7, 251/100), (8, 416/100),
     (9, 666/100), (10, 1004/100), (11, 1646/100), (12, 2634/100),
     (13, 4140/100), (14, 6664/100), (15, 10035/100)]
  | .WG =>
    [(4, 34/100), (5, 58/100), (6, 94/100), (7, 165/100), (8, 267/100),
     (9, 423/100), (10, 666/100), (11, 1145/100), (12, 1725/100),
     (13, 2822/100), (14, 4704/100), (15, 7213/100)]
  | .W6 =>
    [(4, 31/100), (5, 52/100), (6, 84/100), (7, 141/100), (8, 235/100),
     (9, 376/100), (10, 580/100), (11, 1004/100), (12, 1505/100),
     (13, 2509/100), (14, 4140/100), (15, 6272/100)]
  | .WS =>
    [(4, 25/100), (5, 42/100), (6, 73/100), (7, 120/100), (8, 201/100),
     (9, 321/100), (10, 502/100), (11, 847/100), (12, 1333/100),
     (13, 2148/100), (14, 3450/100), (15, 5331/100)]
  | .HC =>
    [(4, 13/100), (5, 19/100), (6, 34/100), (7, 57/100), (8, 94/100),
     (9, 157/100), (10, 235/100), (11, 384/100), (12, 612/100),
     (13, 1004/100), (14, 1631/100), (15, 2509/100)]
  | .HS =>
    [(4, 10/100), (5, 16/100), (6, 26/100), (7, 47/100), (8, 78/100),
     (9, 125/100), (10, 191/100), (11, 329/100), (12, 517/100),
     (13, 847/100), (14, 1348/100), (15, 2038/100)]
  | .HW =>
    [(4, 8/100), (5, 13/100), (6, 21/100), (7, 31/100), (8, 57/100),
     (9, 91/100), (10, 138/100), (11, 235/100), (12, 392/100),
     (13, 627/100), (14, 1004/100), (15, 1505/100)]
  | .HK =>
    [(4, 8/100), (5, 13/100), (6, 21/100), (7, 31/100), (8, 57/100),
     (9, 91/100), (10, 138/100), (11, 235/100), (12, 392/100),
     (13, 627/100), (14, 1004/100), (15, 1505/100)]

/-- `get_payout(symbol, cluster_size)`. -/
def getPayout (sym : Symbol) (size : Nat) : ℚ :=
  if size < MIN_CLUSTER_SIZE then 0
  else lookupD (paytable sym) (min size 15) 0

/-! ## Clusters -/

structure Cluster where
  clusterId : Nat
  symbol : Symbol
  positions : List Pos
  size : Nat
  basePayout : ℚ
  multiplier : Nat
  totalPayout : ℚ
deriving DecidableEq, Repr

/-- `_create_cluster`: payout from the cluster's highest cell multiplier. -/
def mkCluster (g : Grid) (m : MGrid) (cid : Nat) (ps : List Pos) : Cluster :=
  let sym := clusterSymbol g ps
  let base := getPayout sym ps.length
  let maxMult := ps.foldl (fun a p => max a (getMult m p.1 p.2)) 0
  ⟨cid, sym, ps, ps.length, base, maxMult, base * maxMult⟩

/-- `find_all_clusters`. -/
def findAllClusters (g : Grid) (m : MGrid) : List Cluster :=
  (clusterSets g).enum.map fun ips => mkCluster g m ips.1 ips.2

/-- `count_scatters`. -/
def countScatters (g : Grid) : Nat × List Pos :=
  let ps := scanOrder.filter fun p => getCell g p.1 p.2 = some .SC
  (ps.length, ps)

/-! ## Ghost-spot escalation (`upgrade_multipliers`) -/

/-- One escalation step: first win sets the base value, later wins double,
capped at `MAX_MULTIPLIER`. -/
def escalate (current : Nat) : Nat :=
  if current = INITIAL_MULTIPLIER then GHOST_SPOT_BASE
  else min (current * MULTIPLIER_GROWTH) MAX_MULTIPLIER

/-- `upgrade_multipliers(positions)`: escalates once per list entry, in list
order, recording `(position, new_value)` whenever the value changed. -/
def upgradeMultipliers (m : MGrid) (ps : List Pos) : MGrid × List (Pos × Nat) :=
  ps.foldl
    (fun st p =>
      let current := getMult st.1 p.1 p.2
      let newMult := escalate current
      if newMult ≠ current then
        (setMult st.1 p.1 p.2 newMult, st.2 ++ [(p, newMult)])
      else st)
    (m, [])

/-! ## Tumble mechanics (`remove_symbols`, wild wheel, gravity, fill) -/

/-- `remove_symbols(positions)`: clears the cells, returning the wilds among
them (a duplicate position reads `None` the second time). -/
def removeSymbols (g : Grid) (ps : List Pos) : Grid × List Pos :=
  ps.foldl
    (fun st p =>
      let ws :=
        if getCell st.1 p.1 p.2 = some .WD then st.2 ++ [p] else st.2
      (setCell st.1 p.1 p.2 none, ws))
    (g, [])

/-- Wheel distribution of `apply_wild_explosions` (weights sum to 100). -/
def WHEEL_OPTIONS : List (Nat × ℚ) :=
  [(2, 35), (4, 25), (8, 18), (16, 10), (32, 6), (64, 7/2), (128, 3/2), (256, 1)]

/-- Wheel scan: subtract weights until the roll drops to ≤ 0.  The Python
fallback value is `WHEEL_OPTIONS[0][0] = 2` (unreachable for rolls < 100). -/
def wheelScan (roll : ℚ) : List (Nat × ℚ) → Nat
  | [] => 2
  | mw :: rest => if roll - mw.2 ≤ 0 then mw.1 else wheelScan (roll - mw.2) rest

/-- 8-directional in-bounds neighbours in the code's order: cardinal
directions first, then diagonals. -/
def neighbors8 (r c : Nat) : List Pos :=
  stepDirs [(-1, 0), (1, 0), (0, -1), (0, 1), (-1, -1), (-1, 1), (1, -1), (1, 1)] r c

/-- Per-cell multiplier write of the wheel: the greater of current and drawn
value — set, not multiplied. -/
def wheelTouch (m : MGrid) (p : Pos) (wm : Nat) :
    MGrid × (Pos × Nat × Nat) :=
  let old := getMult m p.1 p.2
  let nv := max old wm
  (setMult m p.1 p.2 nv, (p, old, nv))

structure Explosion where
  wildPos : Pos
  affected : List Pos
  details : List (Pos × Nat × Nat)
  wheelMultiplier : Nat
  maxNewMultiplier : Nat
deriving DecidableEq, Repr

/-- One wild of `apply_wild_explosions`: a single `random_float` draw picks
the wheel value, then the wild cell and its in-bounds 8-neighbourhood are
raised to at least that value. -/
def explodeWild (h : Nat → Nat → Nat) (m : MGrid) (s : RNGState) (w : Pos) :
    MGrid × RNGState × Explosion :=
  let fs := randomFloat h s
  let wm := wheelScan (fs.1 * 100) WHEEL_OPTIONS
  let first := wheelTouch m w wm
  let step :=
    (neighbors8 w.1 w.2).foldl
      (fun st nb =>
        let t := wheelTouch st.1 nb wm
        (t.1, st.2 ++ [t.2]))
      (first.1, [first.2])
  let details := step.2
  let maxNew := details.foldl (fun a d => max a d.2.2) 0
  (step.1, fs.2,
    ⟨w, details.map (·.1), details, wm, maxNew⟩)

/-- `apply_wild_explosions(wild_positions, rng)`. -/
def applyWildExplosions (h : Nat → Nat → Nat) (ws : List Pos) (m : MGrid)
    (s : RNGState) : MGrid × RNGState × List Explosion :=
  ws.foldl
    (fun st w =>
      let e := explodeWild h st.1 st.2.1 w
      (e.1, e.2.1, st.2.2 ++ [e.2.2]))
    (m, s, [])

/-- Scan upward (decreasing row index) from `r` for the first cell whose
emptiness equals `wantEmpty`; `none` when the scan runs past row 0.  This is
the pair of inner `while` loops of `apply_gravity`. -/
def scanUp (g : Grid) (c : Nat) (wantEmpty : Bool) : Nat → Option Nat
  | 0 => if (getCell g 0 c = none) = (wantEmpty = true) then some 0 else none
  | r + 1 =>
    if (getCell g (r + 1) c = none) = (wantEmpty = true) then some (r + 1)
    else scanUp g c wantEmpty r

/-- A recorded gravity movement: source, destination, symbol value. -/
abbrev MoveRec : Type := Pos × Pos × String

/-- Outer `while` of `apply_gravity` for one column: find the lowest empty
cell, find the nearest symbol above it, move it down, repeat above. -/
def gravityColLoop (c : Nat) : Nat → Grid → Nat → List MoveRec →
    Grid × List MoveRec
  | 0, g, _, acc => (g, acc)
  | fuel + 1, g, er, acc =>
    match scanUp g c true er with
    | none => (g, acc)
    | some er2 =>
      if er2 = 0 then (g, acc)
      else
        match scanUp g c false (er2 - 1) with
        | none => (g, acc)
        | some sr =>
          let sym := getCell g sr c
          let g2 := setCell (setCell g er2 c sym) sr c none
          gravityColLoop c fuel g2 (er2 - 1)
            (acc ++ [((sr, c), (er2, c), (sym.map symbolValue).getD "")])

/-- `apply_gravity()`: columns processed left to right. -/
def applyGravity (g : Grid) : Grid × List MoveRec :=
  (List.range GRID_COLS).foldl
    (fun st c =>
      let r := gravityColLoop c GRID_ROWS st.1 (GRID_ROWS - 1) []
      (r.1, st.2 ++ r.2))
    (g, [])

/-- `get_empty_positions()`: row-major. -/
def emptyPositions (g : Grid) : List Pos :=
  scanOrder.filter fun p => getCell g p.1 p.2 = none

/-- A recorded fill: position and symbol value. -/
abbrev FillRec : Type := Pos × String

/-- `fill_symbols(rng, positions, ...)`. -/
def fillSymbols (T : GameTables) (h : Nat → Nat → Nat) (fsm sb wb : Bool)
    (rngFuel : Nat) : List Pos → Grid → RNGState →
    Option (Grid × RNGState × List FillRec)
  | [], g, s => some (g, s, [])
  | p :: rest, g, s =>
    match getSymbol T h fsm sb wb rngFuel s with
    | none => none
    | some (sym, s2) =>
      (fillSymbols T h fsm sb wb rngFuel rest (setCell g p.1 p.2 (some sym)) s2).map
        fun r => (r.1, r.2.1, ((p, symbolValue sym) : FillRec) :: r.2.2)

/-- `generate_grid`: `GRID_ROWS × GRID_COLS` fresh symbols, row-major. -/
def generateRow (T : GameTables) (h : Nat → Nat → Nat) (fsm sb wb : Bool)
    (rngFuel : Nat) : Nat → RNGState → Option (List (Option Symbol) × RNGState)
  | 0, s => some ([], s)
  | n + 1, s =>
    match getSymbol T h fsm sb wb rngFuel s with
    | none => none
    | some (sym, s2) =>
      (generateRow T h fsm sb wb rngFuel n s2).map
        fun r => (some sym :: r.1, r.2)

def generateRows (T : GameTables) (h : Nat → Nat → Nat) (fsm sb wb : Bool)
    (rngFuel : Nat) : Nat → RNGState → Option (Grid × RNGState)
  | 0, s => some ([], s)
  | n + 1, s =>
    match generateRow T h fsm sb wb rngFuel GRID_COLS s with
    | none => none
    | some (row, s2) =>
      (generateRows T h fsm sb wb rngFuel n s2).map fun r => (row :: r.1, r.2)

def generateGrid (T : GameTables) (h : Nat → Nat → Nat) (fsm sb wb : Bool)
    (rngFuel : Nat) (s : RNGState) : Option (Grid × RNGState) :=
  generateRows T h fsm sb wb rngFuel GRID_ROWS s

/-! ## Events (`GameEvent` / `EventType`) -/

inductive GameEvent where
  | reveal (positions : List Pos) (symbols : List String)
  | freeSpinsTrigger (scatterCount : Nat) (positions : List Pos)
      (awarded : Nat) (isRetrigger : Bool)
  | wildExplosion (e : Explosion)
  | win (clusterId : Nat) (symbol : String) (positions : List Pos)
      (size : Nat) (basePayout : ℚ) (multiplier : Nat) (amount : ℚ)
  | multiplierUpgrade (pos : Pos) (value : Nat)
  | tumble (movements : List MoveRec)
  | fill (fills : List FillRec)
  | jackpotWin (tier : String) (amount : ℚ)
deriving DecidableEq, Repr

/-- `SCATTER_FREE_SPINS.get(k, SCATTER_FREE_SPINS[6])`. -/
def SCATTER_FREE_SPINS (k : Nat) : Nat :=
  match k with | 3 => 8 | 4 => 12 | 5 => 15 | _ => 20

/-- `SCATTER_RETRIGGER.get(k, SCATTER_RETRIGGER[6])`. -/
def SCATTER_RETRIGGER (k : Nat) : Nat :=
  match k with | 3 => 5 | 4 => 8 | 5 => 10 | _ => 12

/-- Award for `count ≥ 3` scatters in the given mode (retrigger table during
free spins, trigger table in the base game), after `min(count, 6)`. -/
def scatterAward (fsm : Bool) (count : Nat) : Nat :=
  if fsm then SCATTER_RETRIGGER (min count 6) else SCATTER_FREE_SPINS (min count 6)

/-! ## Jackpot (`check_jackpot`) -/

structure JackpotTier where
  name : String
  seedAmount : ℚ
  triggerChance : ℚ
  minBetMultiplier : ℚ
deriving DecidableEq, Repr

/-- `JACKPOT_TIERS` of `game_config.py`. -/
def JACKPOT_TIERS (tid : String) : JackpotTier :=
  if tid = "grand" then ⟨"Grand", 10000, 5/100000000, 10⟩
  else if tid = "major" then ⟨"Major", 1000, 5/10000000, 5⟩
  else if tid = "minor" then ⟨"Minor", 200, 2/1000000, 2⟩
  else ⟨"Mini", 50, 1/100000, 1⟩

/-- Tier iteration order of `check_jackpot`, highest to lowest. -/
def JACKPOT_ORDER : List String := ["grand", "major", "minor", "mini"]

/-- Tier loop of `check_jackpot`: ineligible tiers are skipped without an
RNG draw; the first eligible tier whose drawn float beats its trigger chance
wins and the loop returns at once. -/
def jackpotGo (h : Nat → Nat → Nat) (bet : ℚ) :
    List String → RNGState → Option (String × ℚ) × RNGState
  | [], s => (none, s)
  | tid :: rest, s =>
    let tier := JACKPOT_TIERS tid
    if bet < tier.minBetMultiplier * MIN_BET then jackpotGo h bet rest s
    else
      let fs := randomFloat h s
      if fs.1 < tier.triggerChance then
        (some (tid, tier.seedAmount * (bet / MIN_BET)), fs.2)
      else jackpotGo h bet rest fs.2

/-- `check_jackpot(rng, bet_amount)`. -/
def checkJackpot (h : Nat → Nat → Nat) (bet : ℚ) (s : RNGState) :
    Option (String × ℚ) × RNGState :=
  jackpotGo h bet JACKPOT_ORDER s

/-! ## The tumble loop of `run_spin` -/

structure LoopState where
  g : Grid
  m : MGrid
  rng : RNGState
  events : List GameEvent
  totalPayout : ℚ
  tumbleCount : Nat
  maxSeen : Nat
  fsTriggered : Nat

/-- Tail of one tumble iteration, after removal and gravity: refill the
empty positions and re-check scatters when free spins were not already
triggered this spin. -/
def tumbleRefill (T : GameTables) (h : Nat → Nat → Nat) (fsm sb wb : Bool)
    (rngFuel : Nat) (g2 : Grid) (m2 : MGrid) (s1 : RNGState)
    (evs : List GameEvent) (total : ℚ) (tc maxSeen fst : Nat) :
    Option LoopState :=
  let empties := emptyPositions g2
  if empties = [] then
    some ⟨g2, m2, s1, evs, total, tc, maxSeen, fst⟩
  else
    match fillSymbols T h fsm sb wb rngFuel empties g2 s1 with
    | none => none
    | some fr =>
      let evs5 := evs ++ [GameEvent.fill fr.2.2]
      let sc := countScatters fr.1
      if fst = 0 ∧ 3 ≤ sc.1 then
        let award := scatterAward fsm sc.1
        some ⟨fr.1, m2, fr.2.1,
          evs5 ++ [GameEvent.freeSpinsTrigger sc.1 sc.2 award fsm],
          total, tc, maxSeen, award⟩
      else
        some ⟨fr.1, m2, fr.2.1, evs5, total, tc, maxSeen, fst⟩

/-- `all_winning_positions` of one iteration: the clusters' position lists
concatenated in order. -/
def winningConcat (clusters : List Cluster) : List Pos :=
  clusters.foldl (fun a cl => a ++ cl.positions) []

/-- `wild_positions_in_clusters`: first-occurrence list of the wild cells
inside winning clusters. -/
def collectWilds (g : Grid) (ps : List Pos) : List Pos :=
  ps.foldl
    (fun acc p =>
      if getCell g p.1 p.2 = some .WD ∧ p ∉ acc then acc ++ [p] else acc)
    []

/-- `max_multiplier_seen` update from the wild-explosion events. -/
def explMaxSeen (exs : List Explosion) (ms : Nat) : Nat :=
  exs.foldl (fun a e => max a e.maxNewMultiplier) ms

/-- STEP 2 of the loop body: per cluster, recompute the maximum member
multiplier after the wild explosions, accumulate the bet-scaled payout, emit
the win event, and track the maximum multiplier seen. -/
def winsFold (bet : ℚ) (m1 : MGrid) (clusters : List Cluster) (total0 : ℚ)
    (ms : Nat) : ℚ × List GameEvent × Nat :=
  clusters.foldl
    (fun acc cl =>
      let newMax : Nat :=
        cl.positions.foldl (fun a p => max a (getMult m1 p.1 p.2)) 0
      let clPayout := cl.basePayout * (newMax : ℚ) * bet
      (acc.1 + clPayout,
       acc.2.1 ++
         [GameEvent.win cl.clusterId (symbolValue cl.symbol) cl.positions
            cl.size cl.basePayout newMax clPayout],
       max acc.2.2 newMax))
    (total0, ([], ms))

def upgradeEvents (ups : List (Pos × Nat)) : List GameEvent :=
  ups.map fun pu => GameEvent.multiplierUpgrade pu.1 pu.2

def upgradeMaxSeen (ups : List (Pos × Nat)) (ms : Nat) : Nat :=
  ups.foldl (fun a pu => max a pu.2) ms

/-- The clusters found at the top of one loop body. -/
def iterClusters (st : LoopState) : List Cluster := findAllClusters st.g st.m

/-- `all_winning_positions` of one loop body. -/
def iterWinning (st : LoopState) : List Pos := winningConcat (iterClusters st)

/-- STEP 1: wild explosions for the wilds inside winning clusters. -/
def iterEx (h : Nat → Nat → Nat) (st : LoopState) :
    MGrid × RNGState × List Explosion :=
  applyWildExplosions h (collectWilds st.g (iterWinning st)) st.m st.rng

/-- STEP 2: recalculated cluster payouts over the exploded multipliers. -/
def iterWins (bet : ℚ) (h : Nat → Nat → Nat) (st : LoopState) :
    ℚ × List GameEvent × Nat :=
  winsFold bet (iterEx h st).1 (iterClusters st) st.totalPayout
    (explMaxSeen (iterEx h st).2.2 st.maxSeen)

/-- STEP 3: ghost-spot escalation of all winning positions. -/
def iterUp (h : Nat → Nat → Nat) (st : LoopState) :
    MGrid × List (Pos × Nat) :=
  upgradeMultipliers (iterEx h st).1 (iterWinning st)

/-- STEP 4: removal of the winning symbols, then gravity. -/
def iterGrav (st : LoopState) : Grid × List MoveRec :=
  applyGravity (removeSymbols st.g (iterWinning st)).1

/-- Events accumulated through steps 1-3. -/
def iterEvs (bet : ℚ) (h : Nat → Nat → Nat) (st : LoopState) :
    List GameEvent :=
  (st.events ++ (iterEx h st).2.2.map .wildExplosion) ++
    (iterWins bet h st).2.1 ++ upgradeEvents (iterUp h st).2

/-- One body execution of the `while True:` loop of `run_spin`, taken when
clusters were found: wild explosions, recalculated win payouts, ghost-spot
escalation, removal, gravity, refill, scatter re-check. -/
def tumbleIterate (T : GameTables) (h : Nat → Nat → Nat) (fsm sb wb : Bool)
    (bet : ℚ) (rngFuel : Nat) (st : LoopState) : Option LoopState :=
  tumbleRefill T h fsm sb wb rngFuel (iterGrav st).1 (iterUp h st).1
    (iterEx h st).2.1
    (if (iterGrav st).2 = [] then iterEvs bet h st
     else iterEvs bet h st ++ [GameEvent.tumble (iterGrav st).2])
    (iterWins bet h st).1 (st.tumbleCount + 1)
    (upgradeMaxSeen (iterUp h st).2 (iterWins bet h st).2.2) st.fsTriggered

/-- The fueled `while True:` loop: exits normally when no cluster is found;
`none` means the bound was hit first (the Python loop has NO such bound and
simply keeps running). -/
def tumbleLoop (T : GameTables) (h : Nat → Nat → Nat) (fsm sb wb : Bool)
    (bet : ℚ) (rngFuel : Nat) : Nat → LoopState → Option LoopState
  | 0, _ => none
  | fuel + 1, st =>
    if clusterSets st.g = [] then some st
    else
      match tumbleIterate T h fsm sb wb bet rngFuel st with
      | none => none
      | some st2 => tumbleLoop T h fsm sb wb bet rngFuel fuel st2

/-! ## `SpinResult` and `run_spin` -/

structure SpinResult where
  payoutMultiplier : ℚ
  events : List GameEvent
  initialGrid : List (List String)
  finalGrid : List (List String)
  finalMultipliers : MGrid
  tumbleCount : Nat
  maxMultiplier : Nat
  freeSpinsTriggered : Nat
  freeSpinsRemaining : Int
  isFreeSpin : Bool
  jackpotWon : Option String
  jackpotAmount : ℚ
deriving DecidableEq, Repr

instance : Inhabited SpinResult :=
  ⟨⟨0, [], [], [], [], 0, 1, 0, 0, false, none, 0⟩⟩

/-- The multiplier grid `run_spin` starts from: the caller's carry-over grid
(read cell by cell, as the restore loop of `run_spin` does for free-spin
continuations) or the fresh all-ones grid of `GridState.__init__`. -/
def restoreMultipliers (existing : Option MGrid) : MGrid :=
  match existing with
  | some em =>
    (List.range GRID_ROWS).map fun r =>
      (List.range GRID_COLS).map fun c => (em.getD r []).getD c INITIAL_MULTIPLIER
  | none => initialMGrid

/-- Post-loop tail of `run_spin`: jackpot roll (base game only), payout
capping, free-spin bookkeeping, result assembly. -/
def spinFinish (h : Nat → Nat → Nat) (fsm : Bool) (bet : ℚ)
    (fsRemaining : Int) (initialGrid : List (List String)) (st : LoopState) :
    SpinResult :=
  let jres : Option (String × ℚ) :=
    if fsm then none else (checkJackpot h bet st.rng).1
  let evs :=
    match jres with
    | some ta => st.events ++ [GameEvent.jackpotWin ta.1 ta.2]
    | none => st.events
  let total :=
    st.totalPayout + (match jres with | some ta => ta.2 | none => 0)
  let pm := min (if 0 < bet then total / bet else 0) MAX_WIN_MULTIPLIER
  let rem0 : Int := if fsm then fsRemaining - 1 else 0
  let rem : Int :=
    if 0 < st.fsTriggered then max rem0 0 + (st.fsTriggered : Int) else rem0
  ⟨pm, evs, initialGrid, symbolGridStrings st.g, st.m, st.tumbleCount,
    st.maxSeen, st.fsTriggered, rem, fsm, jres.map (·.1),
    match jres with | some ta => ta.2 | none => 0⟩

/-- `run_spin` over explicit tables.  The caller-facing arguments mirror the
Python signature; `h` stands for the seed triple, `loopFuel`/`rngFuel` bound
the two unbounded loops of the code. -/
def runSpinT (T : GameTables) (h : Nat → Nat → Nat) (loopFuel rngFuel : Nat)
    (bet : ℚ) (fsm : Bool) (fsRemaining : Int) (existing : Option MGrid)
    (sb wb : Bool) (forced : List (Int × Int)) : Option SpinResult :=
  match generateGrid T h fsm sb wb rngFuel initialRNG with
  | none => none
  | some gs =>
    let g1 :=
      forced.foldl
        (fun g rc =>
          if 0 ≤ rc.1 ∧ rc.1 < (GRID_ROWS : Int) ∧ 0 ≤ rc.2 ∧
              rc.2 < (GRID_COLS : Int) then
            setCell g rc.1.toNat rc.2.toNat (some .WD)
          else g)
        gs.1
    let m0 := restoreMultipliers existing
    let ig := symbolGridStrings g1
    let evs0 := [GameEvent.reveal scanOrder (ig.foldl (fun a row => a ++ row) [])]
    let sc := countScatters g1
    let trig := if 3 ≤ sc.1 then scatterAward fsm sc.1 else 0
    let evs1 :=
      if 3 ≤ sc.1 then
        evs0 ++ [GameEvent.freeSpinsTrigger sc.1 sc.2 trig fsm]
      else evs0
    let st0 : LoopState := ⟨g1, m0, gs.2, evs1, 0, 0, 1, trig⟩
    (tumbleLoop T h fsm sb wb bet rngFuel loopFuel st0).map
      (spinFinish h fsm bet fsRemaining ig)

/-- `run_spin` with the configuration tables of `game_config.py`. -/
def runSpin (h : Nat → Nat → Nat) (loopFuel rngFuel : Nat) (bet : ℚ)
    (fsm : Bool) (fsRemaining : Int) (existing : Option MGrid) (sb wb : Bool)
    (forced : List (Int × Int)) : Option SpinResult :=
  runSpinT DEFAULT_TABLES h loopFuel rngFuel bet fsm fsRemaining existing sb wb
    forced

/-- `verify_spin(server_seed, client_seed, nonce, expected_payout, bet)`:
recomputes the spin with default mode flags and compares payout multipliers
with strict tolerance 0.001. -/
def verifySpin (h : Nat → Nat → Nat) (loopFuel rngFuel : Nat)
    (expectedPayout bet : ℚ) : Option (Bool × SpinResult) :=
  (runSpin h loopFuel rngFuel bet false 0 none false false []).map fun r =>
    (decide (|r.payoutMultiplier - expectedPayout| < 1/1000), r)

/-! ## Concrete artifacts used by witnesses and counterexamples -/

/-- Byte stream producing a chequerboard of the two low-tier symbols `HC` /
`HS` on the initial grid (bytes 92 and 118 alternate in the in-grid
chequerboard pattern): the resulting spin has no cluster, no scatter, no
wild, and stabilises immediately. -/
def hcb : Nat → Nat → Nat := fun i j =>
  if ((i * 32 + j) / 6 + (i * 32 + j) % 6) % 2 = 0 then 92 else 118

/-- The all-zero byte stream: every weighted draw lands on the first
positive cumulative weight. -/
def hzero : Nat → Nat → Nat := fun _ _ => 0

/-- Degenerate weight table of the specification's termination scenario: all
weight on the single regular (non-wild, non-scatter) symbol `WR`. -/
def DEGENERATE_TABLES : GameTables :=
  ⟨[(.WD, 0), (.SC, 0), (.WR, 1), (.WB, 0), (.WP, 0), (.WG, 0),
    (.W6, 0), (.WS, 0), (.HC, 0), (.HS, 0), (.HW, 0), (.HK, 0)],
   [(.WD, 0), (.SC, 0), (.WR, 1), (.WB, 0), (.WP, 0), (.WG, 0),
    (.W6, 0), (.WS, 0), (.HC, 0), (.HS, 0), (.HW, 0), (.HK, 0)]⟩

/-- The grid every cell of which is the regular symbol `WR`. -/
def allWRGrid : Grid :=
  (List.range GRID_ROWS).map fun _ =>
    (List.range GRID_COLS).map fun _ => some Symbol.WR

/-- A concrete grid whose wild at `(0, 2)` is 4-adjacent both to a `WR`
block and to a `WB` block: the cluster search assigns it to both clusters,
because `_bfs_cluster` consults only its local visited set when absorbing
cells.  All remaining cells are a chequerboard that forms no cluster. -/
def sharedWildGrid : Grid :=
  [[some .WR, some .WR, some .WD, some .WB, some .WB, some .WB],
   [some .WR, some .WR, some .WS, some .WB, some .WS, some .WG],
   [some .WG, some .WS, some .WG, some .WS, some .WG, some .WS],
   [some .WS, some .WG, some .WS, some .WG, some .WS, some .WG],
   [some .WG, some .WS, some .WG, some .WS, some .WG, some .WS]]

/-- All winning positions of one tumble iteration, cluster by cluster (the
`all_winning_positions` list of `run_spin`). -/
def allWinningPositions (g : Grid) : List Pos :=
  (clusterSets g).foldl (fun a ps => a ++ ps) []

/-- Iterated `random_float` state advance: the SeedStream state after `n`
float draws. -/
def floatIterate (h : Nat → Nat → Nat) : Nat → RNGState → RNGState
  | 0, s => s
  | n + 1, s => floatIterate h n (randomFloat h s).2

/-- The value of the `n`-th successive `random_float` draw from state `s`. -/
def floatAt (h : Nat → Nat → Nat) (s : RNGState) (n : Nat) : ℚ :=
  (randomFloat h (floatIterate h n s)).1

/-- In-bounds predicate for grid positions. -/
def PosInBounds (p : Pos) : Prop := p.1 < GRID_ROWS ∧ p.2 < GRID_COLS

instance (p : Pos) : Decidable (PosInBounds p) := by
  unfold PosInBounds; infer_instance

/-- Well-shaped multiplier grid: `GRID_ROWS` rows of `GRID_COLS` entries. -/
def MShape (m : MGrid) : Prop :=
  m.length = GRID_ROWS ∧ ∀ row ∈ m, row.length = GRID_COLS

instance (m : MGrid) : Decidable (MShape m) := by
  unfold MShape; infer_instance

/-- All in-bounds multiplier entries lie in `[1, MAX_MULTIPLIER]`. -/
def MBounded (m : MGrid) : Prop :=
  ∀ r c, r < GRID_ROWS → c < GRID_COLS →
    1 ≤ getMult m r c ∧ getMult m r c ≤ MAX_MULTIPLIER

instance (m : MGrid) : Decidable (MBounded m) :=
  decidable_of_iff
    (∀ r, r < GRID_ROWS → ∀ c, c < GRID_COLS →
      1 ≤ getMult m r c ∧ getMult m r c ≤ MAX_MULTIPLIER)
    (by
      unfold MBounded
      constructor
      · intro hyp r c hr hc; exact hyp r hr c hc
      · intro hyp r hr c hc; exact hyp r c hr hc)

/-! ## List access lemmas -/

theorem getD_set_self {α : Type} (l : List α) (i : Nat) (v d : α)
    (hi : i < l.length) : (l.set i v).getD i d = v := by
  induction l generalizing i with
  | nil => simp at hi
  | cons a t ih =>
    cases i with
    | zero => rfl
    | succ j => exact ih j (by simpa using hi)

theorem getD_set_ne {α : Type} (l : List α) (i j : Nat) (v d : α)
    (hij : i ≠ j) : (l.set i v).getD j d = l.getD j d := by
  induction l generalizing i j with
  | nil => rfl
  | cons a t ih =>
    cases i with
    | zero =>
      cases j with
      | zero => exact absurd rfl hij
      | succ j2 => rfl
    | succ i2 =>
      cases j with
      | zero => rfl
      | succ j2 => exact ih i2 j2 (fun hc => hij (by rw [hc]))

theorem set_oob {α : Type} (l : List α) (i : Nat) (v : α)
    (hi : l.length ≤ i) : l.set i v = l := by
  induction l generalizing i with
  | nil => rfl
  | cons a t ih =>
    cases i with
    | zero => simp at hi
    | succ j => simpa using ih j (by simpa using hi)

theorem set_getD_self {α : Type} (l : List α) (i : Nat) (d : α)
    (hi : i < l.length) : l.set i (l.getD i d) = l := by
  induction l generalizing i with
  | nil => rfl
  | cons a t ih =>
    cases i with
    | zero => rfl
    | succ j => simpa using ih j (by simpa using hi)

theorem getD_mem {α : Type} (l : List α) (i : Nat) (d : α)
    (hi : i < l.length) : l.getD i d ∈ l := by
  induction l generalizing i with
  | nil => simp at hi
  | cons a t ih =>
    cases i with
    | zero => exact List.mem_cons_self a t
    | succ j => exact List.mem_cons_of_mem a (ih j (by simpa using hi))

theorem mem_enumFrom_snd {α : Type} :
    ∀ (l : List α) (n : Nat) (p : Nat × α), p ∈ l.enumFrom n → p.2 ∈ l := by
  intro l
  induction l with
  | nil => intro n p hp; simp at hp
  | cons a t ih =>
    intro n p hp
    rcases List.mem_cons.mp hp with h | h
    · subst h; exact List.mem_cons_self a t
    · exact List.mem_cons_of_mem a (ih (n + 1) p h)

/-! ## Claim C10: `random_int` on non-positive bounds, zero-weight choice -/

theorem randomInt_nonpos (h : Nat → Nat → Nat) (maxValue : Int) (fuel : Nat)
    (s : RNGState) (hm : maxValue ≤ 0) : randomInt h maxValue fuel s = some (0, s) := by
  unfold randomInt
  rw [if_pos hm]

theorem wcScan_all_zero (cw : List Nat) (hz : ∀ x ∈ cw, x = 0) :
    ∀ i, wcScan 0 cw i = none := by
  induction cw with
  | nil => intro i; rfl
  | cons c rest ih =>
    intro i
    have hc : c = 0 := hz c (List.mem_cons_self c rest)
    unfold wcScan
    rw [if_neg (by omega)]
    exact ih (fun x hx => hz x (List.mem_cons_of_mem c hx)) (i + 1)

/-- C10 (counterexample): with the consistent all-zero cumulative table of a
zero-total weight table, `weighted_choice` returns the LAST index
(`len - 1 = 2`), not index 0 as the claim states. -/
theorem weightedChoice_zero_total_cex :
    weightedChoice hzero [0, 0, 0] 0 1 initialRNG = some (2, initialRNG) ∧
    (2 : Nat) ≠ 0 := by
  constructor
  · rfl
  · decide

/-- C10 (amended): for every `max_value ≤ 0`, `random_int` returns 0 at once
without consuming any bytes (the stream state is returned unchanged) and
without failing; consequently `weighted_choice` under a zero total weight
does not fail either: it draws target 0 and, with every cumulative sum equal
to 0, falls through the scan and silently returns the LAST index
`len(cumulative_weights) - 1` — not index 0. -/
theorem randomInt_nonpositive_weightedChoice_zero :
    (∀ (h : Nat → Nat → Nat) (maxValue : Int) (fuel : Nat) (s : RNGState),
      maxValue ≤ 0 → randomInt h maxValue fuel s = some (0, s)) ∧
    (∀ (h : Nat → Nat → Nat) (cw : List Nat) (fuel : Nat) (s : RNGState),
      cw ≠ [] → (∀ x ∈ cw, x = 0) →
      weightedChoice h cw 0 fuel s = some (cw.length - 1, s)) := by
  constructor
  · exact fun h maxValue fuel s hm => randomInt_nonpos h maxValue fuel s hm
  · intro h cw fuel s _ hz
    unfold weightedChoice
    rw [randomInt_nonpos h 0 fuel s le_rfl]
    simp [wcScan_all_zero cw hz 0]

theorem randomInt_nonpositive_weightedChoice_zero_witness :
    randomInt hzero (-5) 3 initialRNG = some (0, initialRNG) ∧
    weightedChoice hzero [0, 0] 0 1 initialRNG = some (1, initialRNG) :=
  ⟨randomInt_nonpositive_weightedChoice_zero.1 hzero (-5) 3 initialRNG (by decide),
   randomInt_nonpositive_weightedChoice_zero.2 hzero [0, 0] 1 initialRNG
     (by decide) (by decide)⟩

/-! ## Claim C8: cluster minimum size, scatter-free clusters -/

theorem symbolsMatch_not_scatter :
    ∀ (a t : Symbol), t ≠ .SC → symbolsMatch (some a) (some t) = true →
      a ≠ .SC := by
  decide

theorem newTarget_not_scatter :
    ∀ (a t : Symbol), t ≠ .SC → symbolsMatch (some a) (some t) = true →
      (if t = .WD ∧ some a ≠ some .WD then a else t) ≠ .SC := by
  decide

theorem bfsLoop_no_scatter (g : Grid) :
    ∀ (fuel : Nat) (queue : List Pos) (target : Symbol) (lv gv acc : List Pos),
      target ≠ .SC →
      (∀ p ∈ acc, getCell g p.1 p.2 ≠ some .SC) →
      ∀ p ∈ (bfsLoop g fuel queue target lv gv acc).1,
        getCell g p.1 p.2 ≠ some .SC := by
  intro fuel
  induction fuel with
  | zero => intro queue target lv gv acc _ hacc p hp; exact hacc p hp
  | succ n ih =>
    intro queue target lv gv acc ht hacc p hp
    match queue with
    | [] => exact hacc p hp
    | q :: rest =>
      rw [bfsLoop] at hp
      by_cases hm : symbolsMatch (getCell g q.1 q.2) (some target) = true
      · rw [if_pos hm] at hp
        cases hcell : getCell g q.1 q.2 with
        | none => rw [hcell] at hm; simp [symbolsMatch] at hm
        | some a =>
          rw [hcell] at hp hm
          refine ih _ _ _ _ _ ?_ ?_ p hp
          · simpa [Option.getD] using newTarget_not_scatter a target ht hm
          · intro p2 hp2
            rcases List.mem_append.mp hp2 with h2 | h2
            · exact hacc p2 h2
            · have : p2 = q := by simpa using h2
              rw [this, hcell]
              intro hcon
              exact symbolsMatch_not_scatter a target ht hm (by
                injection hcon)
      · rw [if_neg hm] at hp
        exact ih _ _ _ _ _ ht hacc p hp

theorem clusterSetsLoop_no_scatter (g : Grid) :
    ∀ (cells visited : List Pos) (acc : List (List Pos)),
      (∀ ps ∈ acc, ∀ p ∈ ps, getCell g p.1 p.2 ≠ some .SC) →
      ∀ ps ∈ clusterSetsLoop g cells visited acc, ∀ p ∈ ps,
        getCell g p.1 p.2 ≠ some .SC := by
  intro cells
  induction cells with
  | nil => intro visited acc hacc ps hps; exact hacc ps hps
  | cons q rest ih =>
    intro visited acc hacc ps hps
    rw [clusterSetsLoop] at hps
    by_cases hv : q ∈ visited
    · rw [if_pos hv] at hps; exact ih visited acc hacc ps hps
    · rw [if_neg hv] at hps
      split at hps
      · exact ih visited acc hacc ps hps
      · rename_i sym hcell
        by_cases hsc : sym = Symbol.SC
        · rw [if_pos hsc] at hps; exact ih _ acc hacc ps hps
        · rw [if_neg hsc] at hps
          simp only [] at hps
          by_cases hlen :
              MIN_CLUSTER_SIZE ≤ (bfsCluster g q.1 q.2 sym visited).1.length
          · rw [if_pos hlen] at hps
            refine ih _ _ ?_ ps hps
            intro ps2 hps2 p hp
            rcases List.mem_append.mp hps2 with h2 | h2
            · exact hacc ps2 h2 p hp
            · have hps3 : ps2 = (bfsCluster g q.1 q.2 sym visited).1 := by
                simpa using h2
              rw [hps3] at hp
              exact bfsLoop_no_scatter g _ _ _ _ _ _ hsc (by simp) p hp
          · rw [if_neg hlen] at hps
            exact ih _ acc hacc ps hps

theorem clusterSetsLoop_min_size (g : Grid) :
    ∀ (cells visited : List Pos) (acc : List (List Pos)),
      (∀ ps ∈ acc, MIN_CLUSTER_SIZE ≤ ps.length) →
      ∀ ps ∈ clusterSetsLoop g cells visited acc,
        MIN_CLUSTER_SIZE ≤ ps.length := by
  intro cells
  induction cells with
  | nil => intro visited acc hacc ps hps; exact hacc ps hps
  | cons q rest ih =>
    intro visited acc hacc ps hps
    rw [clusterSetsLoop] at hps
    by_cases hv : q ∈ visited
    · rw [if_pos hv] at hps; exact ih visited acc hacc ps hps
    · rw [if_neg hv] at hps
      split at hps
      · exact ih visited acc hacc ps hps
      · rename_i sym hcell
        by_cases hsc : sym = Symbol.SC
        · rw [if_pos hsc] at hps; exact ih _ acc hacc ps hps
        · rw [if_neg hsc] at hps
          simp only [] at hps
          by_cases hlen :
              MIN_CLUSTER_SIZE ≤ (bfsCluster g q.1 q.2 sym visited).1.length
          · rw [if_pos hlen] at hps
            refine ih _ _ ?_ ps hps
            intro ps2 hps2
            rcases List.mem_append.mp hps2 with h2 | h2
            · exact hacc ps2 h2
            · have hps3 : ps2 = (bfsCluster g q.1 q.2 sym visited).1 := by
                simpa using h2
              rw [hps3]; exact hlen
          · rw [if_neg hlen] at hps
            exact ih _ acc hacc ps hps

/-- C8: every cluster returned by `find_all_clusters` has at least
`MIN_CLUSTER_SIZE = 4` member positions (and its `size` field agrees), and
no member position holds a scatter symbol — scatters never join any
cluster. -/
theorem findAllClusters_min_size_no_scatter (g : Grid) (m : MGrid)
    (cl : Cluster) (hcl : cl ∈ findAllClusters g m) :
    MIN_CLUSTER_SIZE ≤ cl.positions.length ∧
    cl.size = cl.positions.length ∧
    ∀ p ∈ cl.positions, getCell g p.1 p.2 ≠ some .SC := by
  obtain ⟨ips, hmem, heq⟩ := List.mem_map.mp hcl
  have hps : ips.2 ∈ clusterSets g := mem_enumFrom_snd _ _ _ hmem
  have h1 := clusterSetsLoop_min_size g scanOrder [] [] (by simp) ips.2 hps
  have h2 := clusterSetsLoop_no_scatter g scanOrder [] [] (by simp) ips.2 hps
  rw [← heq]
  exact ⟨h1, rfl, h2⟩

/-- A concrete winning cluster of `sharedWildGrid` (the `WR` block plus the
shared wild). -/
def sampleCluster : Cluster :=
  (findAllClusters sharedWildGrid initialMGrid).getD 0
    (mkCluster sharedWildGrid initialMGrid 0 [])

theorem findAllClusters_min_size_no_scatter_witness :
    MIN_CLUSTER_SIZE ≤ sampleCluster.positions.length :=
  (findAllClusters_min_size_no_scatter sharedWildGrid initialMGrid
    sampleCluster (by with_unfolding_all decide)).1

/-! ## Multiplier grid lemmas -/

theorem getMult_setMult_ne (m : MGrid) (r c r2 c2 v : Nat)
    (hne : ¬(r = r2 ∧ c = c2)) :
    getMult (setMult m r c v) r2 c2 = getMult m r2 c2 := by
  unfold getMult setMult
  by_cases hr : r = r2
  · subst hr
    by_cases hlen : r < m.length
    · rw [getD_set_self m r _ [] hlen,
        getD_set_ne _ c c2 _ _ (fun hc => hne ⟨rfl, hc⟩)]
    · rw [set_oob m r _ (le_of_not_lt hlen)]
  · rw [getD_set_ne m r r2 _ [] hr]

theorem getMult_setMult_self (m : MGrid) (r c v : Nat) (hr : r < m.length)
    (hc : c < (m.getD r []).length) : getMult (setMult m r c v) r c = v := by
  unfold getMult setMult
  rw [getD_set_self m r _ [] hr,
    getD_set_self _ c v _ (by simpa using hc)]

theorem MShape_setMult (m : MGrid) (r c v : Nat) (hm : MShape m) :
    MShape (setMult m r c v) := by
  obtain ⟨hlen, hrow⟩ := hm
  constructor
  · simpa [setMult] using hlen
  · intro row hrowmem
    by_cases hr : r < m.length
    · rcases List.mem_or_eq_of_mem_set hrowmem with h | h
      · exact hrow row h
      · subst h
        rw [List.length_set]
        exact hrow _ (getD_mem m r [] hr)
    · rw [show setMult m r c v = m from
        set_oob m r _ (le_of_not_lt hr)] at hrowmem
      exact hrow row hrowmem

/-! ## Claim C3: ghost-spot escalation per winning cell -/

/-- The grid effect of one `upgrade_multipliers` list entry. -/
def upgradeStep (m : MGrid) (p : Pos) : MGrid :=
  if escalate (getMult m p.1 p.2) ≠ getMult m p.1 p.2 then
    setMult m p.1 p.2 (escalate (getMult m p.1 p.2))
  else m

theorem upgradeMultipliers_grid (ps : List Pos) :
    ∀ (m : MGrid) (ups : List (Pos × Nat)),
      (ps.foldl
        (fun st p =>
          let current := getMult st.1 p.1 p.2
          let newMult := escalate current
          if newMult ≠ current then
            (setMult st.1 p.1 p.2 newMult, st.2 ++ [(p, newMult)])
          else st)
        (m, ups)).1 = ps.foldl upgradeStep m := by
  induction ps with
  | nil => intro m ups; rfl
  | cons q l ih =>
    intro m ups
    simp only [List.foldl_cons]
    by_cases hq : escalate (getMult m q.1 q.2) ≠ getMult m q.1 q.2
    · rw [if_pos hq]
      rw [upgradeStep, if_pos hq]
      exact ih _ _
    · rw [if_neg hq]
      rw [upgradeStep, if_neg hq]
      exact ih _ _

theorem upgradeStep_shape (m : MGrid) (p : Pos) (hm : MShape m) :
    MShape (upgradeStep m p) := by
  unfold upgradeStep
  split
  · exact MShape_setMult m p.1 p.2 _ hm
  · exact hm

theorem getMult_upgradeStep_ne (m : MGrid) (p q : Pos) (hne : q ≠ p) :
    getMult (upgradeStep m p) q.1 q.2 = getMult m q.1 q.2 := by
  unfold upgradeStep
  split
  · exact getMult_setMult_ne m p.1 p.2 q.1 q.2 _
      (fun hc => hne (Prod.ext hc.1.symm hc.2.symm))
  · rfl

theorem upgradeGrid_untouched (ps : List Pos) :
    ∀ (m : MGrid) (q : Pos), q ∉ ps →
      getMult (ps.foldl upgradeStep m) q.1 q.2 = getMult m q.1 q.2 := by
  induction ps with
  | nil => intro m q _; rfl
  | cons p l ih =>
    intro m q hq
    have hq1 : q ≠ p := fun hc => hq (by rw [hc]; exact List.mem_cons_self p l)
    have hq2 : q ∉ l := fun hc => hq (List.mem_cons_of_mem p hc)
    rw [List.foldl_cons, ih _ q hq2, getMult_upgradeStep_ne m p q hq1]

theorem getMult_upgradeStep_self (m : MGrid) (p : Pos) (hm : MShape m)
    (hin : PosInBounds p) :
    getMult (upgradeStep m p) p.1 p.2 = escalate (getMult m p.1 p.2) := by
  have hr : p.1 < m.length := by rw [hm.1]; exact hin.1
  have hc : p.2 < (m.getD p.1 []).length := by
    rw [hm.2 _ (getD_mem m p.1 [] hr)]; exact hin.2
  unfold upgradeStep
  split
  · exact getMult_setMult_self m p.1 p.2 _ hr hc
  · rename_i hne
    push_neg at hne
    exact hne.symm

theorem upgradeGrid_nodup (ps : List Pos) :
    ∀ m : MGrid, MShape m → ps.Nodup → (∀ p ∈ ps, PosInBounds p) →
      ∀ p ∈ ps, getMult (ps.foldl upgradeStep m) p.1 p.2 =
        escalate (getMult m p.1 p.2) := by
  induction ps with
  | nil => intro m _ _ _ p hp; simp at hp
  | cons q l ih =>
    intro m hm hnd hin p hp
    have hql : q ∉ l := (List.nodup_cons.mp hnd).1
    rw [List.foldl_cons]
    rcases List.mem_cons.mp hp with hpq | hpl
    · subst hpq
      rw [upgradeGrid_untouched l _ p hql]
      exact getMult_upgradeStep_self m p hm
        (hin p (List.mem_cons_self p l))
    · have hpo : p ≠ q := fun hc => hql (hc ▸ hpl)
      rw [ih (upgradeStep m q) (upgradeStep_shape m q hm)
        (List.nodup_cons.mp hnd).2
        (fun p2 hp2 => hin p2 (List.mem_cons_of_mem q hp2)) p hpl,
        getMult_upgradeStep_ne m q p hpo]

/-- `find_all_clusters`' concatenated winning-position lists, exactly as
`run_spin` collects them into `all_winning_positions` (each cluster's
positions in discovery order; a cell shared between clusters occurs once per
cluster). -/
def allWinningOf (g : Grid) (m : MGrid) : List Pos :=
  (findAllClusters g m).foldl (fun a cl => a ++ cl.positions) []

theorem enumFrom_map_fold_positions (g : Grid) (m : MGrid) :
    ∀ (l : List (List Pos)) (n : Nat) (a : List Pos),
      (((l.enumFrom n).map fun ips => mkCluster g m ips.1 ips.2).foldl
        (fun a cl => a ++ cl.positions) a) = l.foldl (fun a ps => a ++ ps) a := by
  intro l
  induction l with
  | nil => intro n a; rfl
  | cons ps rest ih => intro n a; exact ih (n + 1) (a ++ ps)

theorem allWinningOf_eq (g : Grid) (m : MGrid) :
    allWinningOf g m = allWinningPositions g := by
  unfold allWinningOf allWinningPositions findAllClusters clusterSets
  rw [List.enum]
  exact enumFrom_map_fold_positions g m _ 0 []

/-- C3 (counterexample): in `sharedWildGrid` the wild at `(0, 2)` is a member
of two simultaneous clusters, so `run_spin`'s `all_winning_positions` list
contains it twice and `upgrade_multipliers` escalates it twice in the one
tumble iteration: its multiplier ends at 4, not at the base value
`GHOST_SPOT_BASE = 2` the claim requires for a cell that started at 1. -/
theorem upgradeMultipliers_shared_wild_cex :
    ((0, 2) : Pos) ∈ allWinningPositions sharedWildGrid ∧
    getMult initialMGrid 0 2 = 1 ∧
    getMult
      (upgradeMultipliers initialMGrid (allWinningPositions sharedWildGrid)).1
      0 2 = 4 ∧
    (4 : Nat) ≠ GHOST_SPOT_BASE := by
  exact ⟨by decide, by decide, by decide, by decide⟩

/-- C3 (amended): within one tumble iteration every occurrence of a cell in
the collected winning-position lists is escalated once, in list order — a
cell belonging to several simultaneous clusters occurs once per cluster and
is escalated that many times.  When the collected positions are
duplicate-free, every winning cell is escalated exactly once (multiplier 1
becomes `GHOST_SPOT_BASE = 2`, anything else doubles, capped at
`MAX_MULTIPLIER = 1024`) and every other cell is untouched. -/
theorem upgradeMultipliers_escalates_once_nodup (m : MGrid) (ps : List Pos)
    (hm : MShape m) (hnd : ps.Nodup) (hin : ∀ p ∈ ps, PosInBounds p) :
    (∀ p ∈ ps, getMult (upgradeMultipliers m ps).1 p.1 p.2 =
      escalate (getMult m p.1 p.2)) ∧
    (∀ p : Pos, p ∉ ps →
      getMult (upgradeMultipliers m ps).1 p.1 p.2 = getMult m p.1 p.2) := by
  unfold upgradeMultipliers
  rw [upgradeMultipliers_grid ps m []]
  exact ⟨fun p hp => upgradeGrid_nodup ps m hm hnd hin p hp,
    fun p hp => upgradeGrid_untouched ps m p hp⟩

theorem upgradeMultipliers_escalates_once_witness :
    getMult (upgradeMultipliers initialMGrid [(0, 0), (1, 1)]).1 0 0 =
      escalate (getMult initialMGrid 0 0) :=
  (upgradeMultipliers_escalates_once_nodup initialMGrid [(0, 0), (1, 1)]
    (by decide) (by decide) (by decide)).1 (0, 0) (by decide)

/-! ## Bounds and monotonicity of the multiplier operations -/

theorem getD_oob {α : Type} (l : List α) (i : Nat) (d : α)
    (hi : l.length ≤ i) : l.getD i d = d := by
  induction l generalizing i with
  | nil => rfl
  | cons a t ih =>
    cases i with
    | zero => simp at hi
    | succ j => exact ih j (by simpa using hi)

theorem getMult_oob (m : MGrid) (hm : MShape m) (r c : Nat)
    (h : ¬(r < GRID_ROWS ∧ c < GRID_COLS)) : getMult m r c = 0 := by
  unfold getMult
  by_cases hr : r < GRID_ROWS
  · have hc : GRID_COLS ≤ c := by omega
    rw [getD_oob _ c 0 (by rw [hm.2 _ (getD_mem m r [] (by rw [hm.1]; exact hr))]; exact hc)]
  · rw [getD_oob m r [] (by rw [hm.1]; omega)]
    rfl

theorem escalate_bounds (c : Nat) (h1 : 1 ≤ c) (h2 : c ≤ MAX_MULTIPLIER) :
    c ≤ escalate c ∧ 1 ≤ escalate c ∧ escalate c ≤ MAX_MULTIPLIER := by
  unfold escalate INITIAL_MULTIPLIER GHOST_SPOT_BASE MULTIPLIER_GROWTH
    MAX_MULTIPLIER at *
  by_cases hc : c = 1
  · subst hc; norm_num
  · rw [if_neg hc, Nat.min_def]
    split <;> omega

theorem escalate_zero : escalate 0 = 0 := by
  unfold escalate INITIAL_MULTIPLIER GHOST_SPOT_BASE MULTIPLIER_GROWTH
    MAX_MULTIPLIER
  norm_num

theorem upgradeStep_oob (m : MGrid) (p : Pos) (hm : MShape m)
    (h : ¬ PosInBounds p) : upgradeStep m p = m := by
  unfold upgradeStep
  rw [getMult_oob m hm p.1 p.2 h, escalate_zero]
  simp

theorem upgradeStep_invariant (m : MGrid) (p : Pos) (hm : MShape m)
    (hb : MBounded m) :
    MShape (upgradeStep m p) ∧ MBounded (upgradeStep m p) ∧
    ∀ r c, getMult m r c ≤ getMult (upgradeStep m p) r c := by
  by_cases hp : PosInBounds p
  · refine ⟨upgradeStep_shape m p hm, ?_, ?_⟩
    · intro r c hr hc
      by_cases hq : ((r, c) : Pos) = p
      · have hrc : getMult (upgradeStep m p) r c = escalate (getMult m p.1 p.2) := by
          rw [← hq] at hp ⊢
          exact getMult_upgradeStep_self m (r, c) hm hp
        rw [hrc, ← hq]
        obtain ⟨hb1, hb2⟩ := hb r c hr hc
        exact ⟨(escalate_bounds _ hb1 hb2).2.1, (escalate_bounds _ hb1 hb2).2.2⟩
      · rw [getMult_upgradeStep_ne m p (r, c) hq]
        exact hb r c hr hc
    · intro r c
      by_cases hq : ((r, c) : Pos) = p
      · by_cases hrc : r < GRID_ROWS ∧ c < GRID_COLS
        · have hself : getMult (upgradeStep m p) r c = escalate (getMult m p.1 p.2) := by
            rw [← hq] at hp ⊢
            exact getMult_upgradeStep_self m (r, c) hm hp
          rw [hself, ← hq]
          exact (escalate_bounds _ (hb r c hrc.1 hrc.2).1 (hb r c hrc.1 hrc.2).2).1
        · rw [getMult_oob m hm r c hrc]
          omega
      · rw [getMult_upgradeStep_ne m p (r, c) hq]
  · rw [upgradeStep_oob m p hm hp]
    exact ⟨hm, hb, fun r c => le_refl _⟩

theorem upgradeGrid_invariant (ps : List Pos) :
    ∀ m : MGrid, MShape m → MBounded m →
      MShape (ps.foldl upgradeStep m) ∧ MBounded (ps.foldl upgradeStep m) ∧
      ∀ r c, getMult m r c ≤ getMult (ps.foldl upgradeStep m) r c := by
  induction ps with
  | nil => intro m hm hb; exact ⟨hm, hb, fun r c => le_refl _⟩
  | cons p l ih =>
    intro m hm hb
    obtain ⟨h1, h2, h3⟩ := upgradeStep_invariant m p hm hb
    obtain ⟨h4, h5, h6⟩ := ih (upgradeStep m p) h1 h2
    exact ⟨h4, h5, fun r c => le_trans (h3 r c) (h6 r c)⟩

theorem wheelScan_le (l : List (Nat × ℚ))
    (hl : ∀ mw ∈ l, mw.1 ≤ MAX_MULTIPLIER) :
    ∀ roll, wheelScan roll l ≤ MAX_MULTIPLIER := by
  induction l with
  | nil =>
    intro roll
    unfold wheelScan MAX_MULTIPLIER
    omega
  | cons mw rest ih =>
    intro roll
    unfold wheelScan
    split
    · exact hl mw (List.mem_cons_self mw rest)
    · exact ih (fun x hx => hl x (List.mem_cons_of_mem mw hx)) _

theorem wheelOptions_le : ∀ mw ∈ WHEEL_OPTIONS, mw.1 ≤ MAX_MULTIPLIER := by
  intro mw hmw
  fin_cases hmw <;> norm_num [MAX_MULTIPLIER]

/-- The grid effect of one wheel touch. -/
def touchStep (wm : Nat) (m : MGrid) (p : Pos) : MGrid :=
  setMult m p.1 p.2 (max (getMult m p.1 p.2) wm)

theorem wheelTouch_fst (m : MGrid) (p : Pos) (wm : Nat) :
    (wheelTouch m p wm).1 = touchStep wm m p := rfl

theorem getMult_touchStep_ne (wm : Nat) (m : MGrid) (p q : Pos) (hne : q ≠ p) :
    getMult (touchStep wm m p) q.1 q.2 = getMult m q.1 q.2 :=
  getMult_setMult_ne m p.1 p.2 q.1 q.2 _
    (fun hc => hne (Prod.ext hc.1.symm hc.2.symm))

theorem getMult_touchStep_self (wm : Nat) (m : MGrid) (p : Pos)
    (hm : MShape m) (hin : PosInBounds p) :
    getMult (touchStep wm m p) p.1 p.2 = max (getMult m p.1 p.2) wm := by
  have hr : p.1 < m.length := by rw [hm.1]; exact hin.1
  have hc : p.2 < (m.getD p.1 []).length := by
    rw [hm.2 _ (getD_mem m p.1 [] hr)]; exact hin.2
  exact getMult_setMult_self m p.1 p.2 _ hr hc

theorem touchStep_shape (wm : Nat) (m : MGrid) (p : Pos) (hm : MShape m) :
    MShape (touchStep wm m p) := MShape_setMult m p.1 p.2 _ hm

theorem touchFold_untouched (wm : Nat) (L : List Pos) :
    ∀ (m : MGrid) (p : Pos), p ∉ L →
      getMult (L.foldl (touchStep wm) m) p.1 p.2 = getMult m p.1 p.2 := by
  induction L with
  | nil => intro m p _; rfl
  | cons q rest ih =>
    intro m p hp
    have hp1 : p ≠ q := fun hc => hp (by rw [hc]; exact List.mem_cons_self q rest)
    have hp2 : p ∉ rest := fun hc => hp (List.mem_cons_of_mem q hc)
    rw [List.foldl_cons, ih _ p hp2, getMult_touchStep_ne wm m q p hp1]

theorem touchFold_shape (wm : Nat) (L : List Pos) :
    ∀ m : MGrid, MShape m → MShape (L.foldl (touchStep wm) m) := by
  induction L with
  | nil => intro m hm; exact hm
  | cons q rest ih =>
    intro m hm
    exact ih _ (touchStep_shape wm m q hm)

theorem touchFold_char (wm : Nat) (L : List Pos) :
    ∀ m : MGrid, MShape m → (∀ p ∈ L, PosInBounds p) →
      ∀ p : Pos, getMult (L.foldl (touchStep wm) m) p.1 p.2 =
        if p ∈ L then max (getMult m p.1 p.2) wm else getMult m p.1 p.2 := by
  induction L with
  | nil => intro m _ _ p; simp
  | cons q rest ih =>
    intro m hm hin p
    rw [List.foldl_cons]
    by_cases hpr : p ∈ rest
    · rw [ih (touchStep wm m q) (touchStep_shape wm m q hm)
        (fun x hx => hin x (List.mem_cons_of_mem q hx)) p,
        if_pos hpr, if_pos (List.mem_cons_of_mem q hpr)]
      by_cases hpq : p = q
      · subst hpq
        rw [getMult_touchStep_self wm m p hm (hin p (List.mem_cons_self p rest))]
        omega
      · rw [getMult_touchStep_ne wm m q p hpq]
    · rw [touchFold_untouched wm rest _ p hpr]
      by_cases hpq : p = q
      · subst hpq
        rw [getMult_touchStep_self wm m p hm (hin p (List.mem_cons_self p rest)),
          if_pos (List.mem_cons_self p rest)]
      · rw [getMult_touchStep_ne wm m q p hpq,
          if_neg (by
            intro hc
            rcases List.mem_cons.mp hc with h | h
            · exact hpq h
            · exact hpr h)]

theorem touchStep_oob (wm : Nat) (m : MGrid) (p : Pos) (hm : MShape m)
    (h : ¬ PosInBounds p) : touchStep wm m p = m := by
  unfold touchStep setMult
  by_cases hqr : p.1 < GRID_ROWS
  · have hqc : GRID_COLS ≤ p.2 := by unfold PosInBounds at h; omega
    rw [set_oob _ p.2 _ (by
      rw [hm.2 _ (getD_mem m p.1 [] (by rw [hm.1]; exact hqr))]
      exact hqc)]
    exact set_getD_self m p.1 [] (by rw [hm.1]; exact hqr)
  · exact set_oob m p.1 _ (by rw [hm.1]; omega)

theorem touchStep_invariant (wm : Nat) (hwm : wm ≤ MAX_MULTIPLIER) (m : MGrid)
    (p : Pos) (hm : MShape m) (hb : MBounded m) :
    MBounded (touchStep wm m p) ∧
    ∀ r c, getMult m r c ≤ getMult (touchStep wm m p) r c := by
  obtain ⟨pr, pc⟩ := p
  by_cases hp : PosInBounds ((pr, pc) : Pos)
  · constructor
    · intro r c hr hc
      by_cases hq : r = pr ∧ c = pc
      · obtain ⟨h1, h2⟩ := hq
        subst h1; subst h2
        rw [getMult_touchStep_self wm m (r, c) hm hp]
        have hg : getMult m ((r, c) : Pos).1 ((r, c) : Pos).2 = getMult m r c := rfl
        rw [hg]
        have := hb r c hr hc
        unfold MAX_MULTIPLIER at *
        omega
      · rw [getMult_touchStep_ne wm m (pr, pc) (r, c)
          (by simp only [ne_eq, Prod.mk.injEq]; tauto)]
        exact hb r c hr hc
    · intro r c
      by_cases hq : r = pr ∧ c = pc
      · obtain ⟨h1, h2⟩ := hq
        subst h1; subst h2
        rw [getMult_touchStep_self wm m (r, c) hm hp]
        have hg : getMult m ((r, c) : Pos).1 ((r, c) : Pos).2 = getMult m r c := rfl
        rw [hg]
        omega
      · rw [getMult_touchStep_ne wm m (pr, pc) (r, c)
          (by simp only [ne_eq, Prod.mk.injEq]; tauto)]
  · rw [touchStep_oob wm m (pr, pc) hm hp]
    exact ⟨hb, fun r c => le_refl _⟩

theorem touchFold_invariant (wm : Nat) (hwm : wm ≤ MAX_MULTIPLIER)
    (L : List Pos) :
    ∀ m : MGrid, MShape m → MBounded m →
      MBounded (L.foldl (touchStep wm) m) ∧
      ∀ r c, getMult m r c ≤ getMult (L.foldl (touchStep wm) m) r c := by
  induction L with
  | nil => intro m _ hb; exact ⟨hb, fun r c => le_refl _⟩
  | cons q rest ih =>
    intro m hm hb
    obtain ⟨h2, h3⟩ := touchStep_invariant wm hwm m q hm hb
    obtain ⟨h5, h6⟩ := ih (touchStep wm m q) (touchStep_shape wm m q hm) h2
    exact ⟨h5, fun r c => le_trans (h3 r c) (h6 r c)⟩

/-! ## Claim C7: the wild wheel -/

theorem neighbors8_in_bounds (r c : Nat) :
    ∀ p ∈ neighbors8 r c, PosInBounds p := by
  intro p hp
  unfold neighbors8 stepDirs at hp
  rcases List.mem_filterMap.mp hp with ⟨d, _, hd⟩
  simp only [] at hd
  split at hd
  · rename_i hcond
    cases hd
    unfold PosInBounds GRID_ROWS GRID_COLS
    unfold GRID_ROWS GRID_COLS at hcond
    constructor
    · omega
    · omega
  · exact absurd hd (by simp)

theorem touchPairFold_fst (wm : Nat) (L : List Pos) :
    ∀ (m : MGrid) (dl : List (Pos × Nat × Nat)),
      (L.foldl
        (fun st nb =>
          let t := wheelTouch st.1 nb wm
          (t.1, st.2 ++ [t.2]))
        (m, dl)).1 = L.foldl (touchStep wm) m := by
  induction L with
  | nil => intro m dl; rfl
  | cons q rest ih =>
    intro m dl
    simp only [List.foldl_cons]
    exact ih _ _

theorem explodeWild_grid (h : Nat → Nat → Nat) (m : MGrid) (s : RNGState)
    (w : Pos) :
    (explodeWild h m s w).1 = (w :: neighbors8 w.1 w.2).foldl
      (touchStep (wheelScan ((randomFloat h s).1 * 100) WHEEL_OPTIONS)) m := by
  simp only [explodeWild, List.foldl_cons]
  rw [← wheelTouch_fst]
  exact touchPairFold_fst _ _ _ _

theorem explodeWild_rng (h : Nat → Nat → Nat) (m : MGrid) (s : RNGState)
    (w : Pos) : (explodeWild h m s w).2.1 = (randomFloat h s).2 := by
  induction (neighbors8 w.1 w.2) with
  | nil => rfl
  | cons q rest ih =>
    rfl

theorem applyWildFold_rng (h : Nat → Nat → Nat) (ws : List Pos) :
    ∀ (m : MGrid) (s : RNGState) (exs : List Explosion),
      (ws.foldl
        (fun st w2 =>
          let e := explodeWild h st.1 st.2.1 w2
          (e.1, e.2.1, st.2.2 ++ [e.2.2]))
        (m, s, exs)).2.1 = floatIterate h ws.length s := by
  induction ws with
  | nil => intro m s exs; rfl
  | cons w rest ih =>
    intro m s exs
    simp only [List.foldl_cons]
    rw [ih _ _ _]
    rw [explodeWild_rng h m s w]
    rfl

/-- `apply_wild_explosions` advances the SeedStream by exactly one
`random_float` draw per wild in the list. -/
theorem applyWildExplosions_rng (h : Nat → Nat → Nat) (ws : List Pos)
    (m : MGrid) (s : RNGState) :
    (applyWildExplosions h ws m s).2.1 = floatIterate h ws.length s :=
  applyWildFold_rng h ws m s []

/-- The grid/stream evolution of `apply_wild_explosions`, with the event
accumulator stripped. -/
def explGridFold (h : Nat → Nat → Nat) (ws : List Pos) (m : MGrid)
    (s : RNGState) : MGrid × RNGState :=
  ws.foldl
    (fun st w2 => ((explodeWild h st.1 st.2 w2).1, (randomFloat h st.2).2))
    (m, s)

theorem explGridFold_cons (h : Nat → Nat → Nat) (w : Pos) (ws : List Pos)
    (m : MGrid) (s : RNGState) :
    explGridFold h (w :: ws) m s =
      explGridFold h ws (explodeWild h m s w).1 (randomFloat h s).2 := rfl

theorem applyWildFold_grid (h : Nat → Nat → Nat) (ws : List Pos) :
    ∀ (m : MGrid) (s : RNGState) (exs : List Explosion),
      (ws.foldl
        (fun st w2 =>
          let e := explodeWild h st.1 st.2.1 w2
          (e.1, e.2.1, st.2.2 ++ [e.2.2]))
        (m, s, exs)).1 = (explGridFold h ws m s).1 := by
  induction ws with
  | nil => intro m s exs; rfl
  | cons w rest ih =>
    intro m s exs
    rw [explGridFold_cons]
    simp only [List.foldl_cons]
    rw [ih _ _ _, explodeWild_rng h m s w]

theorem explGridFold_invariant (h : Nat → Nat → Nat) (ws : List Pos) :
    ∀ (m : MGrid) (s : RNGState), MShape m → MBounded m →
      MShape (explGridFold h ws m s).1 ∧ MBounded (explGridFold h ws m s).1 ∧
      ∀ r c, getMult m r c ≤ getMult (explGridFold h ws m s).1 r c := by
  induction ws with
  | nil => intro m s hm hb; exact ⟨hm, hb, fun r c => le_refl _⟩
  | cons w rest ih =>
    intro m s hm hb
    rw [explGridFold_cons]
    have hwm : wheelScan ((randomFloat h s).1 * 100) WHEEL_OPTIONS ≤
        MAX_MULTIPLIER := wheelScan_le WHEEL_OPTIONS wheelOptions_le _
    have hshape : MShape (explodeWild h m s w).1 := by
      rw [explodeWild_grid]
      exact touchFold_shape _ _ m hm
    have hinv := touchFold_invariant _ hwm (w :: neighbors8 w.1 w.2) m hm hb
    rw [← explodeWild_grid h m s w] at hinv
    obtain ⟨h2, h3⟩ := hinv
    obtain ⟨h4, h5, h6⟩ := ih (explodeWild h m s w).1 (randomFloat h s).2
      hshape h2
    exact ⟨h4, h5, fun r c => le_trans (h3 r c) (h6 r c)⟩

theorem applyWildExplosions_invariant (h : Nat → Nat → Nat) (ws : List Pos)
    (m : MGrid) (s : RNGState) (hm : MShape m) (hb : MBounded m) :
    MShape (applyWildExplosions h ws m s).1 ∧
    MBounded (applyWildExplosions h ws m s).1 ∧
    ∀ r c, getMult m r c ≤ getMult (applyWildExplosions h ws m s).1 r c := by
  unfold applyWildExplosions
  rw [applyWildFold_grid h ws m s []]
  exact explGridFold_invariant h ws m s hm hb

theorem explGridFold_untouched (h : Nat → Nat → Nat) (ws : List Pos) :
    ∀ (m : MGrid) (s : RNGState) (p : Pos),
      (∀ w ∈ ws, ¬(p = w ∨ p ∈ neighbors8 w.1 w.2)) →
      getMult (explGridFold h ws m s).1 p.1 p.2 = getMult m p.1 p.2 := by
  induction ws with
  | nil => intro m s p _; rfl
  | cons w rest ih =>
    intro m s p hp
    rw [explGridFold_cons]
    rw [ih _ _ p (fun w2 hw2 => hp w2 (List.mem_cons_of_mem w hw2)),
      explodeWild_grid h m s w,
      touchFold_untouched _ _ _ p (by
        intro hc
        exact hp w (List.mem_cons_self w rest) (List.mem_cons.mp hc))]

/-- C7: per wild removed in a tumble iteration, `apply_wild_explosions`
makes exactly one weighted RNG draw; for a single wild the resulting grid
raises exactly the wild's own cell and its in-bounds 8-neighbourhood to the
maximum of the current value and the drawn wheel value (a set, never a
multiplication), leaving every other cell unchanged; every neighbour
produced by the direction scan is in bounds, the grid keeps its shape, and
for a list of wilds the stream advances by exactly one draw per wild while
cells outside every wild's neighbourhood are never modified. -/
theorem applyWildExplosions_spec :
    (∀ (h : Nat → Nat → Nat) (ws : List Pos) (m : MGrid) (s : RNGState),
      (applyWildExplosions h ws m s).2.1 = floatIterate h ws.length s) ∧
    (∀ (h : Nat → Nat → Nat) (m : MGrid) (s : RNGState) (w : Pos),
      MShape m → PosInBounds w →
      (applyWildExplosions h [w] m s).2.1 = (randomFloat h s).2 ∧
      ∀ p : Pos,
        getMult (applyWildExplosions h [w] m s).1 p.1 p.2 =
          if p = w ∨ p ∈ neighbors8 w.1 w.2 then
            max (getMult m p.1 p.2)
              (wheelScan ((randomFloat h s).1 * 100) WHEEL_OPTIONS)
          else getMult m p.1 p.2) ∧
    (∀ r c : Nat, ∀ p ∈ neighbors8 r c, PosInBounds p) ∧
    (∀ (h : Nat → Nat → Nat) (ws : List Pos) (m : MGrid) (s : RNGState),
      MShape m → MShape (applyWildExplosions h ws m s).1) ∧
    (∀ (h : Nat → Nat → Nat) (ws : List Pos) (m : MGrid) (s : RNGState)
      (p : Pos), (∀ w ∈ ws, ¬(p = w ∨ p ∈ neighbors8 w.1 w.2)) →
      getMult (applyWildExplosions h ws m s).1 p.1 p.2 =
        getMult m p.1 p.2) := by
  refine ⟨fun h ws m s => applyWildExplosions_rng h ws m s, ?_, ?_, ?_, ?_⟩
  · intro h m s w hm hw
    constructor
    · exact applyWildExplosions_rng h [w] m s
    · intro p
      have hgrid : (applyWildExplosions h [w] m s).1 = (explodeWild h m s w).1 := by
        unfold applyWildExplosions
        rw [applyWildFold_grid h [w] m s []]
        rfl
      rw [hgrid, explodeWild_grid h m s w,
        touchFold_char _ (w :: neighbors8 w.1 w.2) m hm (by
          intro q hq
          rcases List.mem_cons.mp hq with hq2 | hq2
          · rw [hq2]; exact hw
          · exact neighbors8_in_bounds w.1 w.2 q hq2) p]
      by_cases hmem : p = w ∨ p ∈ neighbors8 w.1 w.2
      · rw [if_pos (List.mem_cons.mpr hmem), if_pos hmem]
      · rw [if_neg (fun hc => hmem (List.mem_cons.mp hc)), if_neg hmem]
  · exact neighbors8_in_bounds
  · intro h ws m s hm
    unfold applyWildExplosions
    rw [applyWildFold_grid h ws m s []]
    induction ws generalizing m s with
    | nil => exact hm
    | cons w rest ih =>
      rw [explGridFold_cons]
      refine ih _ _ ?_
      rw [explodeWild_grid]
      exact touchFold_shape _ _ m hm
  · intro h ws m s p hp
    unfold applyWildExplosions
    rw [applyWildFold_grid h ws m s []]
    exact explGridFold_untouched h ws m s p hp

theorem applyWildExplosions_spec_witness :
    (applyWildExplosions hzero [((2, 2) : Pos)] initialMGrid initialRNG).2.1 =
      (randomFloat hzero initialRNG).2 :=
  ((applyWildExplosions_spec.2.1 hzero initialMGrid initialRNG (2, 2)
    (by decide) (by decide))).1

/-! ## Claim C6: multiplier monotonicity and cap across one spin -/

theorem upgrade_after_explosions (h : Nat → Nat → Nat) (m : MGrid)
    (ws ps : List Pos) (s : RNGState) (hm : MShape m) (hb : MBounded m) :
    MShape (upgradeMultipliers (applyWildExplosions h ws m s).1 ps).1 ∧
    MBounded (upgradeMultipliers (applyWildExplosions h ws m s).1 ps).1 ∧
    ∀ r c, getMult m r c ≤
      getMult (upgradeMultipliers (applyWildExplosions h ws m s).1 ps).1 r c := by
  obtain ⟨e1, e2, e3⟩ := applyWildExplosions_invariant h ws m s hm hb
  rw [show (upgradeMultipliers (applyWildExplosions h ws m s).1 ps).1 =
    ps.foldl upgradeStep (applyWildExplosions h ws m s).1 from
    upgradeMultipliers_grid ps _ []]
  obtain ⟨u1, u2, u3⟩ := upgradeGrid_invariant ps _ e1 e2
  exact ⟨u1, u2, fun r c => le_trans (e3 r c) (u3 r c)⟩

theorem spinFinish_finalMultipliers (h : Nat → Nat → Nat) (fsm : Bool)
    (bet : ℚ) (fsRem : Int) (ig : List (List String)) (st : LoopState) :
    (spinFinish h fsm bet fsRem ig st).finalMultipliers = st.m := rfl

theorem tumbleLoop_zero (T : GameTables) (h : Nat → Nat → Nat)
    (fsm sb wb : Bool) (bet : ℚ) (rngFuel : Nat) (st : LoopState) :
    tumbleLoop T h fsm sb wb bet rngFuel 0 st = none := rfl

theorem tumbleLoop_succ (T : GameTables) (h : Nat → Nat → Nat)
    (fsm sb wb : Bool) (bet : ℚ) (rngFuel n : Nat) (st : LoopState) :
    tumbleLoop T h fsm sb wb bet rngFuel (n + 1) st =
      if clusterSets st.g = [] then some st
      else
        match tumbleIterate T h fsm sb wb bet rngFuel st with
        | none => none
        | some st2 => tumbleLoop T h fsm sb wb bet rngFuel n st2 := rfl

theorem tumbleRefill_m (T : GameTables) (h : Nat → Nat → Nat)
    (fsm sb wb : Bool) (rngFuel : Nat) (g2 : Grid) (m2 : MGrid)
    (s1 : RNGState) (evs : List GameEvent) (total : ℚ)
    (tc maxSeen fst : Nat) (st2 : LoopState)
    (hr : tumbleRefill T h fsm sb wb rngFuel g2 m2 s1 evs total tc maxSeen
      fst = some st2) : st2.m = m2 := by
  simp only [tumbleRefill] at hr
  split at hr
  · rw [← Option.some.inj hr]
  · split at hr
    · exact absurd hr (by simp)
    · split at hr
      · rw [← Option.some.inj hr]
      · rw [← Option.some.inj hr]

theorem tumbleIterate_m (T : GameTables) (h : Nat → Nat → Nat)
    (fsm sb wb : Bool) (bet : ℚ) (rngFuel : Nat) (st st2 : LoopState)
    (hit : tumbleIterate T h fsm sb wb bet rngFuel st = some st2)
    (hm : MShape st.m) (hb : MBounded st.m) :
    MShape st2.m ∧ MBounded st2.m ∧
    ∀ r c, getMult st.m r c ≤ getMult st2.m r c := by
  rw [tumbleIterate] at hit
  rw [tumbleRefill_m T h fsm sb wb rngFuel _ _ _ _ _ _ _ _ st2 hit]
  rw [iterUp, iterEx]
  exact upgrade_after_explosions h st.m _ _ st.rng hm hb

theorem tumbleLoop_m (T : GameTables) (h : Nat → Nat → Nat)
    (fsm sb wb : Bool) (bet : ℚ) (rngFuel : Nat) :
    ∀ (fuel : Nat) (st st2 : LoopState),
      tumbleLoop T h fsm sb wb bet rngFuel fuel st = some st2 →
      MShape st.m → MBounded st.m →
      MShape st2.m ∧ MBounded st2.m ∧
      ∀ r c, getMult st.m r c ≤ getMult st2.m r c := by
  intro fuel
  induction fuel with
  | zero =>
    intro st st2 hit
    rw [tumbleLoop_zero] at hit
    exact absurd hit (by simp)
  | succ n ih =>
    intro st st2 hit hm hb
    rw [tumbleLoop_succ] at hit
    by_cases hcs : clusterSets st.g = []
    · rw [if_pos hcs] at hit
      rw [← Option.some.inj hit]
      exact ⟨hm, hb, fun r c => le_refl _⟩
    · rw [if_neg hcs] at hit
      cases hti : tumbleIterate T h fsm sb wb bet rngFuel st with
      | none => rw [hti] at hit; simp at hit
      | some stm =>
        rw [hti] at hit
        obtain ⟨a1, a2, a3⟩ := tumbleIterate_m T h fsm sb wb bet rngFuel
          st stm hti hm hb
        obtain ⟨b1, b2, b3⟩ := ih stm st2 hit a1 a2
        exact ⟨b1, b2, fun r c => le_trans (a3 r c) (b3 r c)⟩

theorem restoreMultipliers_shape (existing : Option MGrid) :
    MShape (restoreMultipliers existing) := by
  unfold restoreMultipliers
  cases existing with
  | none =>
    unfold initialMGrid MShape
    constructor
    · simp
    · intro row hrow
      simp only [List.mem_map] at hrow
      obtain ⟨x, _, hx⟩ := hrow
      rw [← hx]; simp
  | some em =>
    unfold MShape
    constructor
    · simp
    · intro row hrow
      simp only [List.mem_map] at hrow
      obtain ⟨x, _, hx⟩ := hrow
      rw [← hx]; simp

theorem runSpinT_multipliers (T : GameTables) (h : Nat → Nat → Nat)
    (loopFuel rngFuel : Nat) (bet : ℚ) (fsm : Bool) (fsRem : Int)
    (existing : Option MGrid) (sb wb : Bool) (forced : List (Int × Int))
    (r : SpinResult) (hb : MBounded (restoreMultipliers existing))
    (hrun : runSpinT T h loopFuel rngFuel bet fsm fsRem existing sb wb
      forced = some r) :
    MBounded r.finalMultipliers ∧
    ∀ r2 c, getMult (restoreMultipliers existing) r2 c ≤
      getMult r.finalMultipliers r2 c := by
  simp only [runSpinT] at hrun
  split at hrun
  · exact absurd hrun (by simp)
  · rw [Option.map_eq_some'] at hrun
    obtain ⟨st2, htl, hfin⟩ := hrun
    have hm2 : r.finalMultipliers = st2.m := by
      rw [← hfin, spinFinish_finalMultipliers]
    rw [hm2]
    have hstart := tumbleLoop_m T h fsm sb wb bet rngFuel loopFuel _ st2 htl
      (restoreMultipliers_shape existing) hb
    exact ⟨hstart.2.1, hstart.2.2⟩

/-- C6: for every cell, the multiplier value is non-decreasing after each of
the two multiplier-mutating operations (`upgrade_multipliers` and
`apply_wild_explosions`) and stays within `[1, MAX_MULTIPLIER = 1024]`; and
for a whole `run_spin` started from a carry-over grid with entries in
`[1, 1024]` (or the default all-ones grid), the final multiplier grid is
capped at 1024 and pointwise at least the starting grid. -/
theorem multiplier_monotone_capped :
    (∀ (m : MGrid) (ps : List Pos), MShape m → MBounded m →
      MBounded (upgradeMultipliers m ps).1 ∧
      ∀ r c, getMult m r c ≤ getMult (upgradeMultipliers m ps).1 r c) ∧
    (∀ (h : Nat → Nat → Nat) (ws : List Pos) (m : MGrid) (s : RNGState),
      MShape m → MBounded m →
      MBounded (applyWildExplosions h ws m s).1 ∧
      ∀ r c, getMult m r c ≤ getMult (applyWildExplosions h ws m s).1 r c) ∧
    (∀ (T : GameTables) (h : Nat → Nat → Nat) (loopFuel rngFuel : Nat)
      (bet : ℚ) (fsm : Bool) (fsRem : Int) (existing : Option MGrid)
      (sb wb : Bool) (forced : List (Int × Int)) (r : SpinResult),
      MBounded (restoreMultipliers existing) →
      runSpinT T h loopFuel rngFuel bet fsm fsRem existing sb wb forced =
        some r →
      MBounded r.finalMultipliers ∧
      ∀ r2 c, getMult (restoreMultipliers existing) r2 c ≤
        getMult r.finalMultipliers r2 c) := by
  refine ⟨?_, ?_, ?_⟩
  · intro m ps hm hb
    rw [show (upgradeMultipliers m ps).1 = ps.foldl upgradeStep m from
      upgradeMultipliers_grid ps m []]
    obtain ⟨_, u2, u3⟩ := upgradeGrid_invariant ps m hm hb
    exact ⟨u2, u3⟩
  · intro h ws m s hm hb
    obtain ⟨_, e2, e3⟩ := applyWildExplosions_invariant h ws m s hm hb
    exact ⟨e2, e3⟩
  · intro T h loopFuel rngFuel bet fsm fsRem existing sb wb forced r hb hrun
    exact runSpinT_multipliers T h loopFuel rngFuel bet fsm fsRem existing
      sb wb forced r hb hrun

/-! ## Concrete spins over the chequerboard stream -/

/-- The base-game spin over the chequerboard stream `hcb` at bet 1. -/
def cbBaseSpin : SpinResult :=
  (runSpin hcb 50 1 1 false 0 none false false []).iget

/-- The same spin with the all-ones carry-over grid supplied explicitly. -/
def cbCarrySpin : SpinResult :=
  (runSpin hcb 50 1 1 false 0 (some initialMGrid) false false []).iget

/-- A free-spin-mode spin over the chequerboard stream, 3 spins remaining. -/
def cbFreeSpin : SpinResult :=
  (runSpin hcb 50 1 1 true 3 none false false []).iget

theorem multiplier_monotone_capped_witness :
    1 ≤ getMult cbCarrySpin.finalMultipliers 0 0 ∧
    getMult cbCarrySpin.finalMultipliers 0 0 ≤ MAX_MULTIPLIER :=
  (multiplier_monotone_capped.2.2 DEFAULT_TABLES hcb 50 1 1 false 0
    (some initialMGrid) false false [] cbCarrySpin (by decide)
    (by with_unfolding_all decide)).1 0 0 (by decide) (by decide)

/-! ## Claim C9: negative bet is not rejected -/

/-- C9 (refuting the claim; the code is at fault): `run_spin` performs no
input validation whatsoever — no `InputValidationError` type exists anywhere
in the code — and with a negative bet it returns a normally assembled
`SpinResult` (here: zero payout because of the `bet_amount > 0` guard, zero
tumbles, no jackpot) instead of aborting. -/
theorem runSpin_negative_bet_returns_result :
    (runSpin hcb 50 1 (-1) false 0 none false false []).isSome = true ∧
    (runSpin hcb 50 1 (-1) false 0 none false false []).map
      (fun r => (r.payoutMultiplier, r.tumbleCount, r.jackpotWon,
        r.freeSpinsTriggered)) = some (0, 0, none, 0) := by
  constructor
  · with_unfolding_all decide
  · with_unfolding_all decide

/-! ## Claim C4: the verification round trip -/

/-- C4: `verify_spin` recomputes the spin from the seeds with default mode
flags and returns true exactly when the recomputed payout multiplier is
within (strictly less than) 0.001 of the claimed payout; a claimed payout
off by 1.0 or more always yields false. -/
theorem verifySpin_roundtrip (h : Nat → Nat → Nat) (loopFuel rngFuel : Nat)
    (e bet : ℚ) (r : SpinResult)
    (hrun : runSpin h loopFuel rngFuel bet false 0 none false false [] =
      some r) :
    verifySpin h loopFuel rngFuel e bet =
      some (decide (|r.payoutMultiplier - e| < 1/1000), r) ∧
    (decide (|r.payoutMultiplier - e| < 1/1000) = true ↔
      |r.payoutMultiplier - e| < 1/1000) ∧
    (1 ≤ |r.payoutMultiplier - e| →
      decide (|r.payoutMultiplier - e| < 1/1000) = false) := by
  refine ⟨?_, by simp, ?_⟩
  · unfold verifySpin
    rw [hrun]
    rfl
  · intro hge
    rw [decide_eq_false_iff_not]
    intro hlt
    have hcon : (1 : ℚ) ≤ 1/1000 := le_trans hge (le_of_lt hlt)
    norm_num at hcon

theorem verifySpin_roundtrip_witness :
    verifySpin hcb 50 1 5 1 =
      some (decide (|cbBaseSpin.payoutMultiplier - 5| < 1/1000), cbBaseSpin) :=
  (verifySpin_roundtrip hcb 50 1 5 1 cbBaseSpin
    (by with_unfolding_all decide)).1

/-! ## Claim C1: determinism -/

/-- C1: `run_spin` is a pure function of its arguments — the hash stream `h`
(standing for the seed triple), the fuel bounds, the bet, the mode flags,
the carry-over grid and the forced positions.  Two invocations with
identical arguments return structurally identical `SpinResult`s, field by
field.  (The embedding is justified because the Python code consults no
state outside its arguments: all randomness is HMAC-derived from the seed
triple.) -/
theorem runSpin_deterministic (h : Nat → Nat → Nat) (loopFuel rngFuel : Nat)
    (bet : ℚ) (fsm : Bool) (fsRem : Int) (existing : Option MGrid)
    (sb wb : Bool) (forced : List (Int × Int)) (r1 r2 : SpinResult)
    (h1 : runSpin h loopFuel rngFuel bet fsm fsRem existing sb wb forced =
      some r1)
    (h2 : runSpin h loopFuel rngFuel bet fsm fsRem existing sb wb forced =
      some r2) :
    r1.payoutMultiplier = r2.payoutMultiplier ∧ r1.events = r2.events ∧
    r1.initialGrid = r2.initialGrid ∧ r1.finalGrid = r2.finalGrid ∧
    r1.finalMultipliers = r2.finalMultipliers ∧
    r1.tumbleCount = r2.tumbleCount ∧ r1.maxMultiplier = r2.maxMultiplier ∧
    r1.freeSpinsTriggered = r2.freeSpinsTriggered ∧
    r1.freeSpinsRemaining = r2.freeSpinsRemaining ∧
    r1.isFreeSpin = r2.isFreeSpin ∧ r1.jackpotWon = r2.jackpotWon ∧
    r1.jackpotAmount = r2.jackpotAmount ∧ r1 = r2 := by
  have heq : r1 = r2 := Option.some.inj (h1.symm.trans h2)
  subst heq
  exact ⟨rfl, rfl, rfl, rfl, rfl, rfl, rfl, rfl, rfl, rfl, rfl, rfl, rfl⟩

theorem runSpin_deterministic_witness :
    cbBaseSpin.payoutMultiplier = cbBaseSpin.payoutMultiplier ∧
    cbBaseSpin = cbBaseSpin :=
  ⟨(runSpin_deterministic hcb 50 1 1 false 0 none false false [] cbBaseSpin
      cbBaseSpin (by with_unfolding_all decide)
      (by with_unfolding_all decide)).1,
   (runSpin_deterministic hcb 50 1 1 false 0 none false false [] cbBaseSpin
      cbBaseSpin (by with_unfolding_all decide)
      (by with_unfolding_all decide)).2.2.2.2.2.2.2.2.2.2.2.2⟩

/-! ## Claim C5: jackpot tier iteration -/

/-- Bet eligibility for a tier (`bet_amount >= tier.min_bet_multiplier *
MIN_BET`). -/
def eligibleTier (bet : ℚ) (tid : String) : Bool :=
  !(decide (bet < (JACKPOT_TIERS tid).minBetMultiplier * MIN_BET))

theorem jackpotGo_nil (h : Nat → Nat → Nat) (bet : ℚ) (s : RNGState) :
    jackpotGo h bet [] s = (none, s) := rfl

theorem jackpotGo_cons (h : Nat → Nat → Nat) (bet : ℚ) (t : String)
    (rest : List String) (s : RNGState) :
    jackpotGo h bet (t :: rest) s =
      if bet < (JACKPOT_TIERS t).minBetMultiplier * MIN_BET then
        jackpotGo h bet rest s
      else if (randomFloat h s).1 < (JACKPOT_TIERS t).triggerChance then
        (some (t, (JACKPOT_TIERS t).seedAmount * (bet / MIN_BET)),
          (randomFloat h s).2)
      else jackpotGo h bet rest (randomFloat h s).2 := rfl

theorem jackpotGo_filter (h : Nat → Nat → Nat) (bet : ℚ) :
    ∀ (ts : List String) (s : RNGState),
      jackpotGo h bet ts s = jackpotGo h bet (ts.filter (eligibleTier bet)) s := by
  intro ts
  induction ts with
  | nil => intro s; rfl
  | cons t rest ih =>
    intro s
    rw [jackpotGo_cons, List.filter_cons]
    by_cases he : bet < (JACKPOT_TIERS t).minBetMultiplier * MIN_BET
    · rw [if_pos he,
        show eligibleTier bet t = false by simp [eligibleTier, he]]
      simp only [Bool.false_eq_true, if_false]
      exact ih s
    · rw [if_neg he,
        show eligibleTier bet t = true by simp [eligibleTier, he]]
      simp only [if_true]
      rw [jackpotGo_cons, if_neg he]
      by_cases hf : (randomFloat h s).1 < (JACKPOT_TIERS t).triggerChance
      · rw [if_pos hf, if_pos hf]
      · rw [if_neg hf, if_neg hf]
        exact ih _

theorem jackpotGo_winner (h : Nat → Nat → Nat) (bet : ℚ) :
    ∀ (ts : List String) (s : RNGState) (t : String) (a : ℚ),
      (jackpotGo h bet ts s).1 = some (t, a) →
      t ∈ ts ∧ ¬ bet < (JACKPOT_TIERS t).minBetMultiplier * MIN_BET ∧
      a = (JACKPOT_TIERS t).seedAmount * (bet / MIN_BET) := by
  intro ts
  induction ts with
  | nil => intro s t a hw; rw [jackpotGo_nil] at hw; exact absurd hw (by simp)
  | cons t2 rest ih =>
    intro s t a hw
    rw [jackpotGo_cons] at hw
    by_cases he : bet < (JACKPOT_TIERS t2).minBetMultiplier * MIN_BET
    · rw [if_pos he] at hw
      obtain ⟨m1, m2, m3⟩ := ih s t a hw
      exact ⟨List.mem_cons_of_mem _ m1, m2, m3⟩
    · rw [if_neg he] at hw
      by_cases hf : (randomFloat h s).1 < (JACKPOT_TIERS t2).triggerChance
      · rw [if_pos hf] at hw
        simp only [Option.some.injEq, Prod.mk.injEq] at hw
        obtain ⟨ht, ha⟩ := hw
        subst ht
        exact ⟨List.mem_cons_self _ _, he, ha.symm⟩
      · rw [if_neg hf] at hw
        obtain ⟨m1, m2, m3⟩ := ih _ t a hw
        exact ⟨List.mem_cons_of_mem _ m1, m2, m3⟩

theorem floatAt_zero (h : Nat → Nat → Nat) (s : RNGState) :
    floatAt h s 0 = (randomFloat h s).1 := rfl

theorem floatAt_succ (h : Nat → Nat → Nat) (s : RNGState) (n : Nat) :
    floatAt h s (n + 1) = floatAt h (randomFloat h s).2 n := rfl

theorem jackpotGo_first_success (h : Nat → Nat → Nat) (bet : ℚ) :
    ∀ (ts : List String) (s : RNGState) (t : String) (a : ℚ),
      (∀ t2 ∈ ts, ¬ bet < (JACKPOT_TIERS t2).minBetMultiplier * MIN_BET) →
      ((jackpotGo h bet ts s).1 = some (t, a) ↔
        ∃ i, i < ts.length ∧ ts.getD i "" = t ∧
          (∀ j, j < i →
            ¬ floatAt h s j < (JACKPOT_TIERS (ts.getD j "")).triggerChance) ∧
          floatAt h s i < (JACKPOT_TIERS t).triggerChance ∧
          a = (JACKPOT_TIERS t).seedAmount * (bet / MIN_BET)) := by
  intro ts
  induction ts with
  | nil =>
    intro s t a _
    rw [jackpotGo_nil]
    simp
  | cons t2 rest ih =>
    intro s t a helig
    have he : ¬ bet < (JACKPOT_TIERS t2).minBetMultiplier * MIN_BET :=
      helig t2 (List.mem_cons_self t2 rest)
    rw [jackpotGo_cons, if_neg he]
    by_cases hf : (randomFloat h s).1 < (JACKPOT_TIERS t2).triggerChance
    · rw [if_pos hf]
      simp only [Option.some.injEq, Prod.mk.injEq]
      constructor
      · rintro ⟨ht, ha⟩
        subst ht
        exact ⟨0, by simp, rfl, by omega, by rw [floatAt_zero]; exact hf,
          ha.symm⟩
      · rintro ⟨i, hlen, hget, hprev, hcur, ha⟩
        cases i with
        | zero =>
          have ht : t2 = t := hget
          subst ht
          exact ⟨rfl, ha.symm⟩
        | succ j =>
          exact absurd hf (by
            have := hprev 0 (by omega)
            rw [floatAt_zero] at this
            exact this)
    · rw [if_neg hf]
      rw [ih (randomFloat h s).2 t a
        (fun t3 ht3 => helig t3 (List.mem_cons_of_mem t2 ht3))]
      constructor
      · rintro ⟨i, hlen, hget, hprev, hcur, ha⟩
        refine ⟨i + 1, by simpa using hlen, hget, ?_, ?_, ha⟩
        · intro j hj
          cases j with
          | zero => rw [floatAt_zero]; exact hf
          | succ j2 =>
            rw [floatAt_succ]
            exact hprev j2 (by omega)
        · rw [floatAt_succ]
          exact hcur
      · rintro ⟨i, hlen, hget, hprev, hcur, ha⟩
        cases i with
        | zero =>
          rw [floatAt_zero] at hcur
          rw [show (t2 :: rest).getD 0 "" = t2 from rfl] at hget
          subst hget
          exact absurd hcur hf
        | succ j =>
          refine ⟨j, by simpa using hlen, hget, ?_, ?_, ha⟩
          · intro j2 hj2
            have := hprev (j2 + 1) (by omega)
            rw [floatAt_succ] at this
            exact this
          · rw [floatAt_succ] at hcur
            exact hcur

/-- C5: `check_jackpot` walks the tiers in the fixed order grand, major,
minor, mini; a tier whose minimum eligible bet exceeds the bet is skipped
with no RNG draw (the run over the full order equals the run over only the
eligible tiers, started from the same stream state, so an all-ineligible
order leaves the stream untouched); any winner is an eligible member of the
order, paid `seed_amount * bet / MIN_BET`; over eligible tiers the winner is
exactly the first whose successive `random_float` draw falls below its
trigger chance (hence at most one tier wins, the result being a single
`Option`); and during free spins `run_spin` never rolls the jackpot: the
result carries no jackpot tier and a zero jackpot amount. -/
theorem checkJackpot_spec :
    (∀ (h : Nat → Nat → Nat) (bet : ℚ) (s : RNGState),
      checkJackpot h bet s =
        jackpotGo h bet (JACKPOT_ORDER.filter (eligibleTier bet)) s) ∧
    (∀ (h : Nat → Nat → Nat) (bet : ℚ) (s : RNGState) (t : String) (a : ℚ),
      (checkJackpot h bet s).1 = some (t, a) →
      t ∈ JACKPOT_ORDER ∧
      ¬ bet < (JACKPOT_TIERS t).minBetMultiplier * MIN_BET ∧
      a = (JACKPOT_TIERS t).seedAmount * (bet / MIN_BET)) ∧
    (∀ (h : Nat → Nat → Nat) (bet : ℚ) (ts : List String) (s : RNGState)
      (t : String) (a : ℚ),
      (∀ t2 ∈ ts, ¬ bet < (JACKPOT_TIERS t2).minBetMultiplier * MIN_BET) →
      ((jackpotGo h bet ts s).1 = some (t, a) ↔
        ∃ i, i < ts.length ∧ ts.getD i "" = t ∧
          (∀ j, j < i →
            ¬ floatAt h s j < (JACKPOT_TIERS (ts.getD j "")).triggerChance) ∧
          floatAt h s i < (JACKPOT_TIERS t).triggerChance ∧
          a = (JACKPOT_TIERS t).seedAmount * (bet / MIN_BET))) ∧
    (∀ (h : Nat → Nat → Nat) (loopFuel rngFuel : Nat) (bet : ℚ)
      (fsRem : Int) (existing : Option MGrid) (sb wb : Bool)
      (forced : List (Int × Int)) (r : SpinResult),
      runSpin h loopFuel rngFuel bet true fsRem existing sb wb forced =
        some r →
      r.jackpotWon = none ∧ r.jackpotAmount = 0) := by
  refine ⟨?_, ?_, ?_, ?_⟩
  · intro h bet s
    exact jackpotGo_filter h bet JACKPOT_ORDER s
  · intro h bet s t a hw
    exact jackpotGo_winner h bet JACKPOT_ORDER s t a hw
  · intro h bet ts s t a helig
    exact jackpotGo_first_success h bet ts s t a helig
  · intro h loopFuel rngFuel bet fsRem existing sb wb forced r hrun
    simp only [runSpin, runSpinT] at hrun
    split at hrun
    · exact absurd hrun (by simp)
    · rw [Option.map_eq_some'] at hrun
      obtain ⟨st2, _, hfin⟩ := hrun
      constructor
      · rw [← hfin]; rfl
      · rw [← hfin]; rfl

theorem checkJackpot_spec_witness :
    cbFreeSpin.jackpotWon = none ∧ cbFreeSpin.jackpotAmount = 0 :=
  checkJackpot_spec.2.2.2 hcb 50 1 1 3 none false false [] cbFreeSpin
    (by with_unfolding_all decide)

/-! ## Claim C2: the tumble loop has no iteration ceiling

Under the degenerate weight table (all weight on the single regular symbol
`WR`) and the all-zero byte stream, every refill reproduces the all-`WR`
grid, whose single 30-cell cluster immediately re-forms.  The embedded loop
returns `none` for EVERY fuel bound: the Python `while True:` loop, which
has no bound at all, runs forever, and no `IterationLimitExceeded` error
exists anywhere in the code to be raised. -/

/-- The grid with every cell empty (after removing a full-grid cluster). -/
def allNoneGrid : Grid :=
  (List.range GRID_ROWS).map fun _ =>
    (List.range GRID_COLS).map fun _ => (none : Option Symbol)

theorem getByte_hzero_fst (s : RNGState) : (getByte hzero s).1 = 0 := by
  unfold getByte hzero
  split <;> rfl

theorem getNextBytes_one (h : Nat → Nat → Nat) (s : RNGState) :
    getNextBytes h 1 s = ([(getByte h s).1], (getByte h s).2) := rfl

theorem randomIntLoop_one (h : Nat → Nat → Nat) (mv bn mask : Nat)
    (s : RNGState) :
    randomIntLoop h mv bn mask 1 s =
      if fromBytesBE (getNextBytes h bn s).1 % (mask + 1) < mv then
        some (fromBytesBE (getNextBytes h bn s).1 % (mask + 1),
          (getNextBytes h bn s).2)
      else none := rfl

theorem randomInt_one_hzero (s : RNGState) :
    randomInt hzero 1 1 s = some (0, (getByte hzero s).2) := by
  have hstep : randomInt hzero 1 1 s = randomIntLoop hzero 1 1 1 1 s := by
    simp [randomInt, Nat.log2]
  rw [hstep, randomIntLoop_one, getNextBytes_one, getByte_hzero_fst]
  norm_num [fromBytesBE]

theorem degSymbol (s : RNGState) :
    getSymbol DEGENERATE_TABLES hzero false false false 1 s =
      some (Symbol.WR, (getByte hzero s).2) := by
  show (weightedChoice hzero
      (cumsums (DEGENERATE_TABLES.baseWeights.map (·.2)))
      (totalOf DEGENERATE_TABLES.baseWeights) 1 s).map
      (fun is =>
        ((DEGENERATE_TABLES.baseWeights.map (·.1)).getD is.1 .WD, is.2)) = _
  unfold weightedChoice
  rw [show ((totalOf DEGENERATE_TABLES.baseWeights : Nat) : Int) = 1 from
    by decide]
  rw [randomInt_one_hzero s]
  rfl

theorem fillSymbols_cons (T : GameTables) (h : Nat → Nat → Nat)
    (fsm sb wb : Bool) (rf : Nat) (p : Pos) (rest : List Pos) (g : Grid)
    (s : RNGState) :
    fillSymbols T h fsm sb wb rf (p :: rest) g s =
      match getSymbol T h fsm sb wb rf s with
      | none => none
      | some (sym, s2) =>
        (fillSymbols T h fsm sb wb rf rest (setCell g p.1 p.2 (some sym)) s2).map
          fun r => (r.1, r.2.1, ((p, symbolValue sym) : FillRec) :: r.2.2) := rfl

theorem degFill : ∀ (ps : List Pos) (g : Grid) (s : RNGState),
    ∃ s2 fl, fillSymbols DEGENERATE_TABLES hzero false false false 1 ps g s =
      some (ps.foldl (fun g2 p => setCell g2 p.1 p.2 (some Symbol.WR)) g,
        s2, fl) := by
  intro ps
  induction ps with
  | nil => intro g s; exact ⟨s, [], rfl⟩
  | cons p rest ih =>
    intro g s
    obtain ⟨s2, fl, hf⟩ :=
      ih (setCell g p.1 p.2 (some Symbol.WR)) (getByte hzero s).2
    refine ⟨s2, ((p, symbolValue Symbol.WR) : FillRec) :: fl, ?_⟩
    rw [fillSymbols_cons, degSymbol s]
    show (fillSymbols DEGENERATE_TABLES hzero false false false 1 rest
        (setCell g p.1 p.2 (some Symbol.WR)) (getByte hzero s).2).map
        (fun r => (r.1, r.2.1, ((p, symbolValue Symbol.WR) : FillRec) :: r.2.2)) = _
    rw [hf]
    rfl

theorem deg_refill (m2 : MGrid) (s : RNGState) (evs : List GameEvent)
    (total : ℚ) (tc ms fst : Nat) :
    ∃ st2, tumbleRefill DEGENERATE_TABLES hzero false false false 1
      allNoneGrid m2 s evs total tc ms fst = some st2 ∧
      st2.g = allWRGrid := by
  simp only [tumbleRefill]
  rw [show emptyPositions allNoneGrid = scanOrder from by decide]
  rw [if_neg (show ¬(scanOrder = ([] : List Pos)) from by decide)]
  obtain ⟨s2, fl, hf⟩ := degFill scanOrder allNoneGrid s
  rw [show scanOrder.foldl
      (fun g2 p => setCell g2 p.1 p.2 (some Symbol.WR)) allNoneGrid =
      allWRGrid from by decide] at hf
  split
  · rename_i heq
    rw [heq] at hf
    exact absurd hf (by simp)
  · rename_i fr heq
    have hfr : fr = (allWRGrid, s2, fl) := by
      apply Option.some.inj
      rw [← heq, hf]
    subst hfr
    split
    · exact ⟨_, rfl, rfl⟩
    · exact ⟨_, rfl, rfl⟩

theorem deg_winning (st : LoopState) (hg : st.g = allWRGrid) :
    iterWinning st = allWinningPositions allWRGrid := by
  show winningConcat (findAllClusters st.g st.m) = _
  rw [hg]
  show allWinningOf allWRGrid st.m = _
  rw [allWinningOf_eq]

theorem deg_iterate (st : LoopState) (hg : st.g = allWRGrid) :
    ∃ st2, tumbleIterate DEGENERATE_TABLES hzero false false false 1 1 st =
      some st2 ∧ st2.g = allWRGrid := by
  have hAW := deg_winning st hg
  have hwilds : collectWilds st.g (iterWinning st) = [] := by
    rw [hg, hAW]; decide
  have hex : iterEx hzero st = (st.m, st.rng, []) := by
    show applyWildExplosions hzero (collectWilds st.g (iterWinning st))
      st.m st.rng = _
    rw [hwilds]
    rfl
  have hgrav : iterGrav st = (allNoneGrid, []) := by
    show applyGravity (removeSymbols st.g (iterWinning st)).1 = _
    rw [hg, hAW]
    decide
  unfold tumbleIterate
  rw [hgrav, hex]
  show ∃ st2, tumbleRefill DEGENERATE_TABLES hzero false false false 1
    allNoneGrid (iterUp hzero st).1 st.rng (iterEvs 1 hzero st)
    (iterWins 1 hzero st).1 (st.tumbleCount + 1)
    (upgradeMaxSeen (iterUp hzero st).2 (iterWins 1 hzero st).2.2)
    st.fsTriggered = some st2 ∧ st2.g = allWRGrid
  exact deg_refill _ _ _ _ _ _ _

theorem deg_loop : ∀ (fuel : Nat) (st : LoopState), st.g = allWRGrid →
    tumbleLoop DEGENERATE_TABLES hzero false false false 1 1 fuel st =
      none := by
  intro fuel
  induction fuel with
  | zero => intro st _; exact tumbleLoop_zero _ _ _ _ _ _ _ _
  | succ n ih =>
    intro st hg
    rw [tumbleLoop_succ]
    rw [if_neg (show ¬(clusterSets st.g = []) from by rw [hg]; decide)]
    obtain ⟨st2, hit, hg2⟩ := deg_iterate st hg
    rw [hit]
    exact ih st2 hg2

/-- C2 (refuting the claim; the code is at fault): the tumble loop of
`run_spin` is `while True:` with NO iteration ceiling, and no
`IterationLimitExceeded` error exists anywhere in the code.  Under the
specification's degenerate scenario — all weight on the one regular symbol
`WR` (grid cell count 30 > minimum cluster size 4) — the spin never
terminates for ANY iteration bound: each refill reproduces the all-`WR`
grid and its full-grid cluster re-forms forever, instead of the claimed
abort with `IterationLimitExceeded` after a configured maximum. -/
theorem tumbleLoop_no_iteration_ceiling :
    ∀ loopFuel : Nat,
      runSpinT DEGENERATE_TABLES hzero loopFuel 1 1 false 0 none false false
        [] = none := by
  intro loopFuel
  simp only [runSpinT]
  split
  · rfl
  · rename_i gs heq
    have hgen : generateGrid DEGENERATE_TABLES hzero false false false 1
        initialRNG = some (allWRGrid, ⟨0, 30⟩) := by
      with_unfolding_all decide
    have hgs : gs = (allWRGrid, (⟨0, 30⟩ : RNGState)) :=
      Option.some.inj (heq.symm.trans hgen)
    subst hgs
    rw [deg_loop loopFuel _ rfl]
    rfl

end NeonVinyl

